import Mathlib

/-! One-sided RMA verbs of the fsm component: `ompi/mca/osc/fsm/osc_fsm_comm.c`

A shallow embedding of the lock helpers (`fsm_atomic_trylock`, `fsm_atomic_lock`,
`fsm_atomic_unlock`) and of the one-sided verbs built on them, followed by the
properties established about them.

Conventions of the embedding:

* memory is a flat byte-addressed map; the coherence operations
  (`osc_fsm_invalidate`, `osc_fsm_commit`) do not change it and are recorded,
  with their arguments, in the trace of the run;
* the AccumulateLock word of every rank is kept apart from the byte memory;
* the unbounded spin of `fsm_atomic_lock` is run with a fuel (one unit per access
  to the lock word); what the other origins do to the lock word between two
  accesses of the caller is an explicit parameter, the interference; a verb that
  takes the lock returns `none` when the fuel runs out inside `fsm_atomic_lock`;
* the transfer primitive, the transfer-with-reduction primitive and the reduction
  engine are parameters of every verb (`Env`);
* several origins are run by an interleaving semantics whose steps are the
  accesses to the lock word and the parts of a verb body.

What the development finds:

* `fsm_atomic_trylock` returns non-zero when it observed Unlocked (lines 41 and
  81), and `fsm_atomic_lock` loops while it returns non-zero (line 91): the call
  returns exactly on a try that observed a word other than Unlocked, and spins on
  the Locked it wrote itself otherwise. Mutual exclusion, termination of the
  uncontended call and everything that needs the call to return are lost;
* from the return of `fsm_atomic_lock` on, the bodies of the verbs do what is
  expected of them (compare and swap, NoOp, Replace, Sum, release of the lock on
  a failed transfer);
* `ompi_osc_fsm_rget_accumulate` fetches the target without a prior invalidate and,
  for a reducing operator, invalidates after the fetch;
* a failed transfer is reported by the return code alone: no request is ever
  marked failed;
* the accumulate verbs measure the invalidate on the origin descriptor and the
  commit on the target descriptor: the two ranges differ when the descriptors do;
* the local compare-and-swap branch of `fsm_atomic_trylock` returns 1 on failure,
  the three other branches return 1 on success.
-/

namespace OscFsm

/-! ## Constants and handles declared outside the file -/

/-- Modelled from the spec: the value Unlocked of the AccumulateLock word
(`OPAL_ATOMIC_LOCK_UNLOCKED`, declared in the atomics header). -/
def OPAL_ATOMIC_LOCK_UNLOCKED : Int := 0

/-- Modelled from the spec: the value Locked of the AccumulateLock word
(`OPAL_ATOMIC_LOCK_LOCKED`, declared in the atomics header). -/
def OPAL_ATOMIC_LOCK_LOCKED : Int := 1

/-- Modelled from the spec: the success return code (`OMPI_SUCCESS`). -/
def OMPI_SUCCESS : Int := 0

/-- Modelled from the spec: a generic failure return code of the transfer
primitive (`OMPI_ERROR`); only its being different from success is used. -/
def OMPI_ERROR : Int := -1

/-- The build flag of line 24: `#define OSC_FSM_USE_SWAP_INSTEAD_OF_CSWAP 1`. -/
def OSC_FSM_USE_SWAP_INSTEAD_OF_CSWAP : Bool := true

/-- Modelled from the spec: an element-layout handle (`struct ompi_datatype_t`).
`id` stands for the identity of the handle, `size` is what
`ompi_datatype_type_size` reports; layouts are contiguous. -/
structure ompi_datatype_t where
  id : Nat
  size : Nat
deriving DecidableEq, Repr

/-- Modelled from the spec: the closed operator set (`struct ompi_op_t` singletons);
the source compares against `ompi_mpi_op_replace` and `ompi_mpi_op_no_op` only. -/
inductive ompi_op_t where
  | ompi_mpi_op_replace
  | ompi_mpi_op_no_op
  | ompi_mpi_op_sum
  | ompi_mpi_op_prod
  | ompi_mpi_op_min
  | ompi_mpi_op_max
  | ompi_mpi_op_band
  | ompi_mpi_op_bor
  | ompi_mpi_op_bxor
  | ompi_mpi_op_land
  | ompi_mpi_op_lor
  | ompi_mpi_op_lxor
deriving DecidableEq, Repr

/-- Modelled from the spec: the completion handle (`struct ompi_request_t`); its only
meaningful field is the error indicator. -/
structure ompi_request_t where
  MPI_ERROR : Int
  complete : Bool
deriving DecidableEq, Repr

/-- Modelled from the spec: the already-complete successful request
(`ompi_request_empty`: "has status MPI_SUCCESS and indicates the request is complete"). -/
def ompi_request_empty : ompi_request_t := ⟨OMPI_SUCCESS, true⟩

/-- The per-rank tables of the window read by the verbs (`ompi_osc_fsm_module_t`):
the caller's own rank, the base address and the displacement unit of every rank. -/
structure ompi_osc_fsm_module_t where
  comm_rank : Nat
  bases : Nat → Int
  disp_units : Nat → Int

/-! ## Memory, buffers, trace -/

/-- Byte-addressed memory. -/
abbrev Mem := Int → Nat

/-- The `n` bytes starting at address `a`. -/
def readBytes (m : Mem) (a : Int) (n : Nat) : List Nat :=
  (List.range n).map (fun (i : Nat) => m (a + (i : Int)))

/-- Memory after storing the bytes `bs` from address `a` on. -/
def writeBytes (m : Mem) (a : Int) (bs : List Nat) : Mem :=
  fun x => if a ≤ x ∧ x < a + (bs.length : Int) then bs.getD (x - a).toNat 0 else m x

/-- A memory holding `bs` from address `a` on and zero elsewhere. -/
def memOf (a : Int) (bs : List Nat) : Mem := writeBytes (fun _ => 0) a bs

/-- Two byte ranges, `n` bytes from `a` and `k` bytes from `b`, do not overlap. -/
def RangesApart (a : Int) (n : Nat) (b : Int) (k : Nat) : Prop :=
  a + (n : Int) ≤ b ∨ b + (k : Int) ≤ a

/-- A buffer descriptor: address, count, element layout. -/
structure Buf where
  addr : Int
  count : Nat
  dt : ompi_datatype_t
deriving DecidableEq, Repr

/-- Number of bytes a buffer descriptor covers. -/
def Buf.bytes (b : Buf) : Nat := b.dt.size * b.count

/-- The steps a run records, in the order they are performed. -/
inductive Event where
  /-- one `fsm_atomic_trylock` on the lock word of `target`: the prior value it
  observed and the value it returned -/
  | trylock (target : Nat) (prev : Int) (ret : Int)
  /-- one iteration of the inner loop of `fsm_atomic_lock`: the lock word read
  Locked, its cache line is invalidated and `opal_progress` is called -/
  | spin (target : Nat)
  /-- an `osc_fsm_invalidate` of a byte range of the target region -/
  | invalidate (target : Nat) (addr : Int) (len : Nat)
  /-- transfer target→result, with the code the primitive returned -/
  | fetch (target : Nat) (ret : Int)
  /-- transfer or reduction origin→target, with the code the primitive returned -/
  | mutate (target : Nat) (ret : Int)
  /-- an `osc_fsm_commit` of a byte range of the target region -/
  | commit (target : Nat) (addr : Int) (len : Nat)
  /-- the `fsm_atomic_unlock` on the lock word of `target` -/
  | unlock (target : Nat)
deriving DecidableEq, Repr

/-- The step is an `osc_fsm_commit`. -/
def Event.isCommit : Event → Bool
  | Event.commit _ _ _ => true
  | _ => false

/-- The step is an `osc_fsm_invalidate`. -/
def Event.isInvalidate : Event → Bool
  | Event.invalidate _ _ _ => true
  | _ => false

/-- The coherence steps of a trace, in order: its invalidates and its commits, each
with the byte range it was passed. -/
def coherenceSteps (tr : List Event) : List Event :=
  tr.filter (fun e => e.isInvalidate || e.isCommit)

/-- The step is an `fsm_atomic_unlock`. -/
def Event.isUnlock : Event → Bool
  | Event.unlock _ => true
  | _ => false

/-- The step belongs to `fsm_atomic_lock`: an `fsm_atomic_trylock` or a spin. -/
def Event.isLockStep : Event → Bool
  | Event.trylock _ _ _ => true
  | Event.spin _ => true
  | _ => false

/-- The place of a step in the order lock, invalidate, fetch, mutation, commit,
unlock. -/
def Event.phase : Event → Nat
  | Event.trylock _ _ _ => 0
  | Event.spin _ => 0
  | Event.invalidate _ _ _ => 1
  | Event.fetch _ _ => 2
  | Event.mutate _ _ => 3
  | Event.commit _ _ _ => 4
  | Event.unlock _ => 5

/-- The steps come in the order lock, invalidate, fetch, mutation, commit, unlock:
no step is followed, at any distance, by a step of an earlier place. -/
def StepOrder (tr : List Event) : Prop :=
  List.Pairwise (fun a b => a ≤ b) (tr.map Event.phase)

instance (tr : List Event) : Decidable (StepOrder tr) := by
  unfold StepOrder
  infer_instance

/-- The state a verb runs on: the byte memory, the AccumulateLock word of every
rank (`node_states[rank]->accumulate_lock`) and the trace so far. -/
structure World where
  mem : Mem
  accumulate_lock : Nat → Int
  trace : List Event

/-- A state with every lock word Unlocked and an empty trace. -/
def worldOf (m : Mem) : World :=
  { mem := m
    accumulate_lock := fun _ => OPAL_ATOMIC_LOCK_UNLOCKED
    trace := [] }

/-- The external collaborators, taken as parameters: the transfer primitive
(source buffer, destination buffer), the transfer with reduction (origin, target,
operator) and the reduction engine (operator, source address, destination
address, count, layout). Each returns the memory it leaves; the first two also
return their code. -/
structure Env where
  ompi_datatype_sndrcv : Mem → Buf → Buf → Int × Mem
  ompi_osc_base_sndrcv_op : Mem → Buf → Buf → ompi_op_t → Int × Mem
  ompi_op_reduce : Mem → ompi_op_t → Int → Int → Nat → ompi_datatype_t → Mem

/-- What the other origins do to the lock word before the caller's `k`-th access
to it: a function of `k` and of the word the caller left. -/
abbrev Interference := Nat → Int → Int

/-- No other origin writes the lock word. -/
def noInterference : Interference := fun _ w => w

/-- Another origin exchanged Locked into the word just before the caller's first
access; nothing else is written afterwards. -/
def lockedJustBefore : Interference :=
  fun k w => if k = 0 then OPAL_ATOMIC_LOCK_LOCKED else w

/-! ## AtomicLock -/

/-- Modelled from the spec: local atomic exchange (`opal_atomic_swap_64`): returns
the prior value, leaves the new one. -/
def opal_atomic_swap (w v : Int) : Int × Int := (w, v)

/-- Modelled from the spec: local strong compare-exchange
(`opal_atomic_compare_exchange_strong_acq_64`): succeeds, and stores `desired`,
iff the word equals `expected`. -/
def opal_atomic_compare_exchange_strong (w expected desired : Int) : Bool × Int :=
  if w = expected then (true, desired) else (false, w)

/-- Modelled from the spec: remote fetching atomic write (`fi_fetch_atomic` with
`FI_ATOMIC_WRITE`): reports the prior value, leaves the written one. -/
def fi_fetch_atomic_write (w v : Int) : Int × Int := (w, v)

/-- Modelled from the spec: remote compare-and-swap (`fi_compare_atomic` with
`FI_CSWAP`): reports the prior value, stores `v` iff the word equals `compare`. -/
def fi_compare_atomic_cswap (w compare v : Int) : Int × Int :=
  (w, if w = compare then v else w)

/-- Modelled from the spec: remote atomic write without reply (`fi_atomic` with
`FI_ATOMIC_WRITE` under `OSC_FSM_FI_INJECT_ATOMIC`). -/
def fi_atomic_write (_w v : Int) : Int := v

/-- The function `fsm_atomic_trylock` (lines 31-83) on the lock word `w`, for either
value of the build flag: the value returned and the word left. -/
def fsm_atomic_trylock (use_swap : Bool) (module : ompi_osc_fsm_module_t)
    (target_rank : Nat) (w : Int) : Int × Int :=
  if target_rank = module.comm_rank then
    if use_swap then
      let r := opal_atomic_swap w OPAL_ATOMIC_LOCK_LOCKED
      (if r.1 = OPAL_ATOMIC_LOCK_UNLOCKED then 1 else 0, r.2)
    else
      let r := opal_atomic_compare_exchange_strong w OPAL_ATOMIC_LOCK_UNLOCKED
        OPAL_ATOMIC_LOCK_LOCKED
      (if r.1 = false then 1 else 0, r.2)
  else
    if use_swap then
      let r := fi_fetch_atomic_write w OPAL_ATOMIC_LOCK_LOCKED
      (if r.1 = OPAL_ATOMIC_LOCK_UNLOCKED then 1 else 0, r.2)
    else
      let r := fi_compare_atomic_cswap w OPAL_ATOMIC_LOCK_UNLOCKED OPAL_ATOMIC_LOCK_LOCKED
      (if r.1 = OPAL_ATOMIC_LOCK_UNLOCKED then 1 else 0, r.2)

/-- Where the caller stands inside `fsm_atomic_lock`: about to evaluate the
condition of the outer loop, or about to evaluate that of the inner one. -/
inductive LockPc where
  | outer
  | inner
deriving DecidableEq, Repr

/-- What a finished `fsm_atomic_lock` leaves: the lock word, the number of accesses
made to it, and the steps performed. -/
structure LockRun where
  word : Int
  accesses : Nat
  steps : List Event
deriving DecidableEq, Repr

/-- The two nested loops of `fsm_atomic_lock` (lines 91-97), one lock-word access
per unit of fuel. `k` counts the accesses, `w` is the word the caller left at its
last access, `tr` the steps so far. The outer condition is
`fsm_atomic_trylock (...)`: a non-zero value enters the body; the inner condition
is `*lock == OPAL_ATOMIC_LOCK_LOCKED`. `none`: the fuel ran out before the
function returned. -/
def fsm_atomic_lock_loop (use_swap : Bool) (module : ompi_osc_fsm_module_t)
    (target_rank : Nat) (intf : Interference) :
    Nat → LockPc → Nat → Int → List Event → Option LockRun
  | 0, _, _, _, _ => none
  | fuel + 1, LockPc.outer, k, w, tr =>
      let w0 := intf k w
      let r := fsm_atomic_trylock use_swap module target_rank w0
      if r.1 ≠ 0 then
        fsm_atomic_lock_loop use_swap module target_rank intf fuel LockPc.inner (k + 1) r.2
          (tr ++ [Event.trylock target_rank w0 r.1])
      else
        some ⟨r.2, k + 1, tr ++ [Event.trylock target_rank w0 r.1]⟩
  | fuel + 1, LockPc.inner, k, w, tr =>
      let w0 := intf k w
      if w0 = OPAL_ATOMIC_LOCK_LOCKED then
        fsm_atomic_lock_loop use_swap module target_rank intf fuel LockPc.inner (k + 1) w0
          (tr ++ [Event.spin target_rank])
      else
        fsm_atomic_lock_loop use_swap module target_rank intf fuel LockPc.outer (k + 1) w0 tr

/-- The function `fsm_atomic_lock` (lines 85-99) as compiled, on the lock word alone. -/
def fsm_atomic_lock_word (module : ompi_osc_fsm_module_t) (target_rank : Nat)
    (intf : Interference) (fuel : Nat) (w : Int) : Option LockRun :=
  fsm_atomic_lock_loop OSC_FSM_USE_SWAP_INSTEAD_OF_CSWAP module target_rank intf fuel
    LockPc.outer 0 w []

/-- The function `fsm_atomic_lock` on the state of a run. -/
def fsm_atomic_lock (module : ompi_osc_fsm_module_t) (target_rank : Nat)
    (intf : Interference) (fuel : Nat) (w : World) : Option World :=
  (fsm_atomic_lock_word module target_rank intf fuel (w.accumulate_lock target_rank)).map
    fun r => { w with
      accumulate_lock := Function.update w.accumulate_lock target_rank r.word
      trace := w.trace ++ r.steps }

/-- The function `fsm_atomic_unlock` (lines 101-123) on the lock word alone: a local
exchange, or one remote atomic write, of Unlocked; the word it leaves. -/
def fsm_atomic_unlock_word (module : ompi_osc_fsm_module_t) (target_rank : Nat) (w : Int) :
    Int :=
  if target_rank = module.comm_rank
    then (opal_atomic_swap w OPAL_ATOMIC_LOCK_UNLOCKED).2
    else fi_atomic_write w OPAL_ATOMIC_LOCK_UNLOCKED

/-- The function `fsm_atomic_unlock` on the state of a run. -/
def fsm_atomic_unlock (module : ompi_osc_fsm_module_t) (target_rank : Nat) (w : World) :
    World :=
  { w with
    accumulate_lock := Function.update w.accumulate_lock target_rank
      (fsm_atomic_unlock_word module target_rank (w.accumulate_lock target_rank))
    trace := w.trace ++ [Event.unlock target_rank] }

/-! ## AddressTranslator and CoherenceController -/

/-- The address every verb computes first:
`((char*) module->bases[target]) + module->disp_units[target] * target_disp`. -/
def remote_address (module : ompi_osc_fsm_module_t) (target : Nat) (target_disp : Int) : Int :=
  module.bases target + module.disp_units target * target_disp

/-- Modelled from the spec: `osc_fsm_invalidate (module, target, addr, len, fence)`,
declared in the component header: refreshes the cached view of the byte range;
no effect on the flat memory, recorded in the trace. -/
def osc_fsm_invalidate (target : Nat) (addr : Int) (len : Nat) (w : World) : World :=
  { w with trace := w.trace ++ [Event.invalidate target addr len] }

/-- Modelled from the spec: `osc_fsm_commit (module, target, addr, len, fence)`,
declared in the component header: pushes local writes of the byte range out;
no effect on the flat memory, recorded in the trace. -/
def osc_fsm_commit (target : Nat) (addr : Int) (len : Nat) (w : World) : World :=
  { w with trace := w.trace ++ [Event.commit target addr len] }

/-! ## Byte-level helpers of the single-element verbs -/

/-- Modelled from the spec: `ompi_datatype_copy_content_same_ddt (dt, count, dst, src)`
for a contiguous layout: copies `count` elements of `dt.size` bytes. -/
def ompi_datatype_copy_content_same_ddt (m : Mem) (dt : ompi_datatype_t) (count : Nat)
    (dst src : Int) : Mem :=
  writeBytes m dst (readBytes m src (dt.size * count))

/-- Lexicographic comparison of two byte strings, as `memcmp` reports it. -/
def memcmpBytes : List Nat → List Nat → Int
  | a :: as, b :: bs => if a < b then -1 else if b < a then 1 else memcmpBytes as bs
  | _, _ => 0

/-- The library function `memcmp (p, q, n)` on the flat memory. -/
def memcmp (m : Mem) (p q : Int) (n : Nat) : Int :=
  memcmpBytes (readBytes m p n) (readBytes m q n)

/-! ## Transfers, recorded -/

/-- A call of the transfer primitive whose source is the target region
(target→result or target→origin), recorded as a fetch. -/
def sndrcv_fetch (E : Env) (target : Nat) (src dst : Buf) (w : World) : Int × World :=
  let r := E.ompi_datatype_sndrcv w.mem src dst
  (r.1, { w with mem := r.2, trace := w.trace ++ [Event.fetch target r.1] })

/-- A call of the transfer primitive whose destination is the target region,
recorded as a mutation. -/
def sndrcv_store (E : Env) (target : Nat) (src dst : Buf) (w : World) : Int × World :=
  let r := E.ompi_datatype_sndrcv w.mem src dst
  (r.1, { w with mem := r.2, trace := w.trace ++ [Event.mutate target r.1] })

/-- A call of `ompi_osc_base_sndrcv_op` into the target region, recorded as a mutation. -/
def sndrcv_op_store (E : Env) (target : Nat) (src dst : Buf) (op : ompi_op_t) (w : World) :
    Int × World :=
  let r := E.ompi_osc_base_sndrcv_op w.mem src dst op
  (r.1, { w with mem := r.2, trace := w.trace ++ [Event.mutate target r.1] })

/-- The primitive an accumulating verb calls to change the target: the transfer
primitive for Replace, the transfer with reduction otherwise; its code and the
memory it leaves. -/
def mutation_primitive (E : Env) (origin tbuf : Buf) (op : ompi_op_t) (m : Mem) : Int × Mem :=
  if op = ompi_op_t.ompi_mpi_op_replace then E.ompi_datatype_sndrcv m origin tbuf
  else E.ompi_osc_base_sndrcv_op m origin tbuf op

/-! ## RmaOperationEngine: put and get -/

/-- The function `ompi_osc_fsm_rput` (lines 125-162): return code, the request written
to `*ompi_req` (`none`: not written), state. -/
def ompi_osc_fsm_rput (E : Env) (module : ompi_osc_fsm_module_t) (origin : Buf)
    (target : Nat) (target_disp : Int) (target_count : Nat) (target_dt : ompi_datatype_t)
    (w : World) : Int × Option ompi_request_t × World :=
  let remote := remote_address module target target_disp
  let r := sndrcv_store E target origin ⟨remote, target_count, target_dt⟩ w
  if OMPI_SUCCESS ≠ r.1 then (r.1, none, r.2)
  else (OMPI_SUCCESS, some ompi_request_empty, r.2)

/-- The function `ompi_osc_fsm_rget` (lines 165-202). -/
def ompi_osc_fsm_rget (E : Env) (module : ompi_osc_fsm_module_t) (origin : Buf)
    (target : Nat) (target_disp : Int) (target_count : Nat) (target_dt : ompi_datatype_t)
    (w : World) : Int × Option ompi_request_t × World :=
  let remote := remote_address module target target_disp
  let r := sndrcv_fetch E target ⟨remote, target_count, target_dt⟩ origin w
  if OMPI_SUCCESS ≠ r.1 then (r.1, none, r.2)
  else (OMPI_SUCCESS, some ompi_request_empty, r.2)

/-- The function `ompi_osc_fsm_put` (lines 326-354). -/
def ompi_osc_fsm_put (E : Env) (module : ompi_osc_fsm_module_t) (origin : Buf)
    (target : Nat) (target_disp : Int) (target_count : Nat) (target_dt : ompi_datatype_t)
    (w : World) : Int × World :=
  let remote := remote_address module target target_disp
  sndrcv_store E target origin ⟨remote, target_count, target_dt⟩ w

/-- The function `ompi_osc_fsm_get` (lines 357-385). -/
def ompi_osc_fsm_get (E : Env) (module : ompi_osc_fsm_module_t) (origin : Buf)
    (target : Nat) (target_disp : Int) (target_count : Nat) (target_dt : ompi_datatype_t)
    (w : World) : Int × World :=
  let remote := remote_address module target target_disp
  sndrcv_fetch E target ⟨remote, target_count, target_dt⟩ origin w

/-! ## RmaOperationEngine: the accumulating verbs

Each verb is `fsm_atomic_lock` followed by the rest of its body; the rest is a
total function of the state `fsm_atomic_lock` returned in.
-/

/-- Lines 234-250 of `ompi_osc_fsm_raccumulate`, the same as lines 416-431 of
`ompi_osc_fsm_accumulate`: what follows the return of `fsm_atomic_lock`. -/
def accumulate_locked (E : Env) (module : ompi_osc_fsm_module_t) (origin : Buf)
    (target : Nat) (target_disp : Int) (target_count : Nat) (target_dt : ompi_datatype_t)
    (op : ompi_op_t) (w : World) : Int × World :=
  let remote := remote_address module target target_disp
  let r :=
    if op = ompi_op_t.ompi_mpi_op_replace then
      sndrcv_store E target origin ⟨remote, target_count, target_dt⟩ w
    else
      let size := origin.dt.size
      sndrcv_op_store E target origin ⟨remote, target_count, target_dt⟩ op
        (osc_fsm_invalidate target remote (size * origin.count) w)
  let w3 :=
    if op ≠ ompi_op_t.ompi_mpi_op_no_op then
      let size := target_dt.size
      osc_fsm_commit target remote (size * target_count) r.2
    else r.2
  (r.1, fsm_atomic_unlock module target w3)

/-- The function `ompi_osc_fsm_accumulate` (lines 388-434). `none`: the fuel ran out
inside `fsm_atomic_lock`. -/
def ompi_osc_fsm_accumulate (E : Env) (intf : Interference) (fuel : Nat)
    (module : ompi_osc_fsm_module_t) (origin : Buf)
    (target : Nat) (target_disp : Int) (target_count : Nat) (target_dt : ompi_datatype_t)
    (op : ompi_op_t) (w : World) : Option (Int × World) :=
  (fsm_atomic_lock module target intf fuel w).map
    (accumulate_locked E module origin target target_disp target_count target_dt op)

/-- The function `ompi_osc_fsm_raccumulate` (lines 205-258): return code, the request
written to `*ompi_req`, state. -/
def ompi_osc_fsm_raccumulate (E : Env) (intf : Interference) (fuel : Nat)
    (module : ompi_osc_fsm_module_t) (origin : Buf)
    (target : Nat) (target_disp : Int) (target_count : Nat) (target_dt : ompi_datatype_t)
    (op : ompi_op_t) (w : World) : Option (Int × Option ompi_request_t × World) :=
  (fsm_atomic_lock module target intf fuel w).map fun w1 =>
    let r := accumulate_locked E module origin target target_disp target_count target_dt op w1
    (r.1, some ompi_request_empty, r.2)

/-- Lines 469-490 of `ompi_osc_fsm_get_accumulate`: what follows the return of
`fsm_atomic_lock`. -/
def get_accumulate_locked (E : Env) (module : ompi_osc_fsm_module_t) (origin result : Buf)
    (target : Nat) (target_disp : Int) (target_count : Nat) (target_dt : ompi_datatype_t)
    (op : ompi_op_t) (w : World) : Int × World :=
  let remote := remote_address module target target_disp
  let size := origin.dt.size
  let w1 := osc_fsm_invalidate target remote (size * origin.count) w
  let f := sndrcv_fetch E target ⟨remote, target_count, target_dt⟩ result w1
  if OMPI_SUCCESS ≠ f.1 ∨ op = ompi_op_t.ompi_mpi_op_no_op then
    (f.1, fsm_atomic_unlock module target f.2)
  else
    let r :=
      if op = ompi_op_t.ompi_mpi_op_replace then
        sndrcv_store E target origin ⟨remote, target_count, target_dt⟩ f.2
      else
        sndrcv_op_store E target origin ⟨remote, target_count, target_dt⟩ op f.2
    let size := target_dt.size
    let w3 := osc_fsm_commit target remote (size * target_count) r.2
    (r.1, fsm_atomic_unlock module target w3)

/-- The function `ompi_osc_fsm_get_accumulate` (lines 437-491). -/
def ompi_osc_fsm_get_accumulate (E : Env) (intf : Interference) (fuel : Nat)
    (module : ompi_osc_fsm_module_t) (origin result : Buf)
    (target : Nat) (target_disp : Int) (target_count : Nat) (target_dt : ompi_datatype_t)
    (op : ompi_op_t) (w : World) : Option (Int × World) :=
  (fsm_atomic_lock module target intf fuel w).map
    (get_accumulate_locked E module origin result target target_disp target_count target_dt op)

/-- Lines 295-322 of `ompi_osc_fsm_rget_accumulate`: what follows the return of
`fsm_atomic_lock`. -/
def rget_accumulate_locked (E : Env) (module : ompi_osc_fsm_module_t) (origin result : Buf)
    (target : Nat) (target_disp : Int) (target_count : Nat) (target_dt : ompi_datatype_t)
    (op : ompi_op_t) (w : World) : Int × Option ompi_request_t × World :=
  let remote := remote_address module target target_disp
  let f := sndrcv_fetch E target ⟨remote, target_count, target_dt⟩ result w
  if OMPI_SUCCESS ≠ f.1 ∨ op = ompi_op_t.ompi_mpi_op_no_op then
    (f.1, some ompi_request_empty, fsm_atomic_unlock module target f.2)
  else
    let r :=
      if op = ompi_op_t.ompi_mpi_op_replace then
        sndrcv_store E target origin ⟨remote, target_count, target_dt⟩ f.2
      else
        let size := origin.dt.size
        sndrcv_op_store E target origin ⟨remote, target_count, target_dt⟩ op
          (osc_fsm_invalidate target remote (size * origin.count) f.2)
    let size := target_dt.size
    let w3 := osc_fsm_commit target remote (size * target_count) r.2
    (r.1, some ompi_request_empty, fsm_atomic_unlock module target w3)

/-- The function `ompi_osc_fsm_rget_accumulate` (lines 262-323). -/
def ompi_osc_fsm_rget_accumulate (E : Env) (intf : Interference) (fuel : Nat)
    (module : ompi_osc_fsm_module_t) (origin result : Buf)
    (target : Nat) (target_disp : Int) (target_count : Nat) (target_dt : ompi_datatype_t)
    (op : ompi_op_t) (w : World) : Option (Int × Option ompi_request_t × World) :=
  (fsm_atomic_lock module target intf fuel w).map
    (rget_accumulate_locked E module origin result target target_disp target_count target_dt op)

/-- Lines 519-533 of `ompi_osc_fsm_compare_and_swap`: what follows the return of
`fsm_atomic_lock`. -/
def compare_and_swap_locked (module : ompi_osc_fsm_module_t)
    (origin_addr compare_addr result_addr : Int) (dt : ompi_datatype_t)
    (target : Nat) (target_disp : Int) (w : World) : Int × World :=
  let remote := remote_address module target target_disp
  let size := dt.size
  let w1 := osc_fsm_invalidate target remote size w
  let w2 : World := { w1 with
    mem := ompi_datatype_copy_content_same_ddt w1.mem dt 1 result_addr remote
    trace := w1.trace ++ [Event.fetch target OMPI_SUCCESS] }
  if 0 = memcmp w2.mem result_addr compare_addr size then
    let w3 : World := { w2 with
      mem := ompi_datatype_copy_content_same_ddt w2.mem dt 1 remote origin_addr
      trace := w2.trace ++ [Event.mutate target OMPI_SUCCESS] }
    let w4 := osc_fsm_commit target remote size w3
    (OMPI_SUCCESS, fsm_atomic_unlock module target w4)
  else
    (OMPI_SUCCESS, fsm_atomic_unlock module target w2)

/-- The function `ompi_osc_fsm_compare_and_swap` (lines 494-534). -/
def ompi_osc_fsm_compare_and_swap (intf : Interference) (fuel : Nat)
    (module : ompi_osc_fsm_module_t)
    (origin_addr compare_addr result_addr : Int) (dt : ompi_datatype_t)
    (target : Nat) (target_disp : Int) (w : World) : Option (Int × World) :=
  (fsm_atomic_lock module target intf fuel w).map
    (compare_and_swap_locked module origin_addr compare_addr result_addr dt target target_disp)

/-- Lines 562-580 of `ompi_osc_fsm_fetch_and_op`: what follows the return of
`fsm_atomic_lock`. -/
def fetch_and_op_locked (E : Env) (module : ompi_osc_fsm_module_t)
    (origin_addr result_addr : Int) (dt : ompi_datatype_t)
    (target : Nat) (target_disp : Int) (op : ompi_op_t) (w : World) : Int × World :=
  let remote := remote_address module target target_disp
  let size := dt.size
  let w1 := osc_fsm_invalidate target remote size w
  let w2 : World := { w1 with
    mem := ompi_datatype_copy_content_same_ddt w1.mem dt 1 result_addr remote
    trace := w1.trace ++ [Event.fetch target OMPI_SUCCESS] }
  if op = ompi_op_t.ompi_mpi_op_no_op then
    (OMPI_SUCCESS, fsm_atomic_unlock module target w2)
  else
    let m3 :=
      if op = ompi_op_t.ompi_mpi_op_replace then
        ompi_datatype_copy_content_same_ddt w2.mem dt 1 remote origin_addr
      else
        E.ompi_op_reduce w2.mem op origin_addr remote 1 dt
    let w3 : World := { w2 with
      mem := m3
      trace := w2.trace ++ [Event.mutate target OMPI_SUCCESS] }
    let w4 := osc_fsm_commit target remote size w3
    (OMPI_SUCCESS, fsm_atomic_unlock module target w4)

/-- The function `ompi_osc_fsm_fetch_and_op` (lines 537-581). -/
def ompi_osc_fsm_fetch_and_op (E : Env) (intf : Interference) (fuel : Nat)
    (module : ompi_osc_fsm_module_t)
    (origin_addr result_addr : Int) (dt : ompi_datatype_t)
    (target : Nat) (target_disp : Int) (op : ompi_op_t) (w : World) : Option (Int × World) :=
  (fsm_atomic_lock module target intf fuel w).map
    (fetch_and_op_locked E module origin_addr result_addr dt target target_disp op)

/-! ## Several origins on one lock word

An interleaving semantics: a state holds the shared lock word and, for every
origin, where it stands; one step is one access of one origin to the lock word
(or its call of `fsm_atomic_lock`), and a schedule is the list of the origins
that step, in order.
-/

/-- Where an origin stands: outside any call; inside `fsm_atomic_lock`, about to
evaluate the outer or the inner loop condition; between the return of
`fsm_atomic_lock` and its `fsm_atomic_unlock`. -/
inductive OriginPc where
  | idle
  | outer
  | inner
  | holding
deriving DecidableEq, Repr

/-- The lock word of the target and the position of every origin. -/
structure LockSys where
  word : Int
  pc : Nat → OriginPc

/-- Every origin outside any call, the word Unlocked. -/
def LockSys.init : LockSys :=
  { word := OPAL_ATOMIC_LOCK_UNLOCKED
    pc := fun _ => OriginPc.idle }

/-- One step of the origin `i`, whose window tables are `modules i`, on the lock
word of `target`: the call of `fsm_atomic_lock`; one `fsm_atomic_trylock` (outer
condition, lines 91); one read of the word (inner condition, line 93); the
`fsm_atomic_unlock`. -/
def LockSys.step (modules : Nat → ompi_osc_fsm_module_t) (target : Nat) (s : LockSys)
    (i : Nat) : LockSys :=
  match s.pc i with
  | OriginPc.idle => { s with pc := Function.update s.pc i OriginPc.outer }
  | OriginPc.outer =>
      let r := fsm_atomic_trylock OSC_FSM_USE_SWAP_INSTEAD_OF_CSWAP (modules i) target s.word
      { word := r.2
        pc := Function.update s.pc i (if r.1 ≠ 0 then OriginPc.inner else OriginPc.holding) }
  | OriginPc.inner =>
      if s.word = OPAL_ATOMIC_LOCK_LOCKED then s
      else { s with pc := Function.update s.pc i OriginPc.outer }
  | OriginPc.holding =>
      { word := fsm_atomic_unlock_word (modules i) target s.word
        pc := Function.update s.pc i OriginPc.idle }

/-- The state after the origins of the schedule have stepped, in order. -/
def LockSys.run (modules : Nat → ompi_osc_fsm_module_t) (target : Nat) :
    LockSys → List Nat → LockSys
  | s, [] => s
  | s, i :: rest => LockSys.run modules target (LockSys.step modules target s i) rest

/-- At most one origin is between the return of its lock call and its unlock call. -/
def LockSys.MutualExclusion (s : LockSys) : Prop :=
  ∀ i j, s.pc i = OriginPc.holding → s.pc j = OriginPc.holding → i = j

/-! ## Several origins running `ompi_osc_fsm_fetch_and_op` on one target

The same interleaving semantics with the body of the verb: every origin runs one
call; a step is one lock-word access or one of the two halves of the body (the
fetch of lines 562-566, the update of lines 569-575) or the unlock. Steps are
atomic; a finer grain only adds interleavings.
-/

/-- The arguments of one `ompi_osc_fsm_fetch_and_op` call. -/
structure FetchAndOpCall where
  origin_addr : Int
  result_addr : Int
  dt : ompi_datatype_t
  target_disp : Int
  op : ompi_op_t

/-- Where an origin stands inside its call: not yet called; inside
`fsm_atomic_lock` (outer or inner condition); lock returned (line 562 next);
fetched (line 569 next); at the label `done` (line 578 next); returned. -/
inductive RmwPc where
  | idle
  | outer
  | inner
  | locked
  | fetched
  | release
  | returned
deriving DecidableEq, Repr

/-- The shared state and the position of every origin. -/
structure RmwSys where
  world : World
  pc : Nat → RmwPc

/-- One step of the origin `i` in its call `calls i` against `target`. -/
def RmwSys.step (E : Env) (modules : Nat → ompi_osc_fsm_module_t) (target : Nat)
    (calls : Nat → FetchAndOpCall) (s : RmwSys) (i : Nat) : RmwSys :=
  let c := calls i
  let remote := remote_address (modules i) target c.target_disp
  let size := c.dt.size
  match s.pc i with
  | RmwPc.idle => { s with pc := Function.update s.pc i RmwPc.outer }
  | RmwPc.outer =>
      let w0 := s.world.accumulate_lock target
      let r := fsm_atomic_trylock OSC_FSM_USE_SWAP_INSTEAD_OF_CSWAP (modules i) target w0
      { world := { s.world with
          accumulate_lock := Function.update s.world.accumulate_lock target r.2
          trace := s.world.trace ++ [Event.trylock target w0 r.1] }
        pc := Function.update s.pc i (if r.1 ≠ 0 then RmwPc.inner else RmwPc.locked) }
  | RmwPc.inner =>
      if s.world.accumulate_lock target = OPAL_ATOMIC_LOCK_LOCKED then
        { s with world := { s.world with trace := s.world.trace ++ [Event.spin target] } }
      else { s with pc := Function.update s.pc i RmwPc.outer }
  | RmwPc.locked =>
      let w1 := osc_fsm_invalidate target remote size s.world
      let w2 : World := { w1 with
        mem := ompi_datatype_copy_content_same_ddt w1.mem c.dt 1 c.result_addr remote
        trace := w1.trace ++ [Event.fetch target OMPI_SUCCESS] }
      { world := w2
        pc := Function.update s.pc i
          (if c.op = ompi_op_t.ompi_mpi_op_no_op then RmwPc.release else RmwPc.fetched) }
  | RmwPc.fetched =>
      let w2 := s.world
      let m3 :=
        if c.op = ompi_op_t.ompi_mpi_op_replace then
          ompi_datatype_copy_content_same_ddt w2.mem c.dt 1 remote c.origin_addr
        else
          E.ompi_op_reduce w2.mem c.op c.origin_addr remote 1 c.dt
      let w3 : World := { w2 with
        mem := m3
        trace := w2.trace ++ [Event.mutate target OMPI_SUCCESS] }
      { world := osc_fsm_commit target remote size w3
        pc := Function.update s.pc i RmwPc.release }
  | RmwPc.release =>
      { world := fsm_atomic_unlock (modules i) target s.world
        pc := Function.update s.pc i RmwPc.returned }
  | RmwPc.returned => s

/-- The state after the origins of the schedule have stepped, in order. -/
def RmwSys.run (E : Env) (modules : Nat → ompi_osc_fsm_module_t) (target : Nat)
    (calls : Nat → FetchAndOpCall) : RmwSys → List Nat → RmwSys
  | s, [] => s
  | s, i :: rest =>
      RmwSys.run E modules target calls (RmwSys.step E modules target calls s i) rest

/-- The calls of `order` executed one at a time, each from the return of its
`fsm_atomic_lock` to its own return, on the memory `m`: the memory left. -/
def sequentialMem (E : Env) (modules : Nat → ompi_osc_fsm_module_t) (target : Nat)
    (calls : Nat → FetchAndOpCall) : Mem → List Nat → Mem
  | m, [] => m
  | m, i :: rest =>
      let c := calls i
      let r := fetch_and_op_locked E (modules i) c.origin_addr c.result_addr c.dt target
        c.target_disp c.op (worldOf m)
      sequentialMem E modules target calls r.2.mem rest

/-- The sequential execution of the calls of `order` from the memory `m0` explains
a concurrent run that ended in the memory `fin`: every completed call finds in its
result buffer what the run left there, and the target region (the `n` bytes from
`remote`) ends as in the run. -/
def ExplainedBy (E : Env) (modules : Nat → ompi_osc_fsm_module_t) (target : Nat)
    (calls : Nat → FetchAndOpCall) (m0 : Mem) (completed : List Nat) (remote : Int) (n : Nat)
    (fin : Mem) (order : List Nat) : Prop :=
  (∀ i ∈ completed,
    readBytes (sequentialMem E modules target calls m0 order) (calls i).result_addr
        (calls i).dt.size
      = readBytes fin (calls i).result_addr (calls i).dt.size) ∧
  readBytes (sequentialMem E modules target calls m0 order) remote n = readBytes fin remote n

instance (E : Env) (modules : Nat → ompi_osc_fsm_module_t) (target : Nat)
    (calls : Nat → FetchAndOpCall) (m0 : Mem) (completed : List Nat) (remote : Int) (n : Nat)
    (fin : Mem) (order : List Nat) :
    Decidable (ExplainedBy E modules target calls m0 completed remote n fin order) := by
  unfold ExplainedBy
  infer_instance

/-! ## Assumptions on the transfer primitive, and the release of the lock -/

/-- Assumption on the transfer primitive: it writes no byte outside the destination
buffer it is given. -/
def Env.TransferFrame (E : Env) : Prop :=
  ∀ (m : Mem) (src dst : Buf) (x : Int),
    ¬ (dst.addr ≤ x ∧ x < dst.addr + (dst.bytes : Int)) →
    (E.ompi_datatype_sndrcv m src dst).2 x = m x

/-- Assumption on the transfer primitive: when it reports success the destination
buffer starts with the bytes the source buffer held. -/
def Env.TransferCopies (E : Env) : Prop :=
  ∀ (m : Mem) (src dst : Buf),
    (E.ompi_datatype_sndrcv m src dst).1 = OMPI_SUCCESS →
    readBytes (E.ompi_datatype_sndrcv m src dst).2 dst.addr src.bytes
      = readBytes m src.addr src.bytes

/-- The lock of `target` was released exactly once between the states `w` and
`w'`, by the last step performed, and the word reads Unlocked. -/
def ReleasedOnce (target : Nat) (w w' : World) : Prop :=
  w'.trace.countP Event.isUnlock = w.trace.countP Event.isUnlock + 1 ∧
  w'.trace.getLast? = some (Event.unlock target) ∧
  w'.accumulate_lock target = OPAL_ATOMIC_LOCK_UNLOCKED

/-! ## A concrete environment and concrete inputs

One instance of the external collaborators and a few states, used to run the
verbs on concrete inputs.
-/

/-- Little-endian bytes of `x`, `n` of them. -/
def encodeLE : Nat → Nat → List Nat
  | 0, _ => []
  | n + 1, x => x % 256 :: encodeLE n (x / 256)

/-- The number a little-endian byte string stands for. -/
def decodeLE : List Nat → Nat
  | [] => 0
  | b :: bs => b + 256 * decodeLE bs

/-- Modelled from the spec: the reduction engine on one element of `bits` bits,
`t` the target element and `o` the origin element, unsigned. -/
def applyOp (op : ompi_op_t) (bits : Nat) (t o : Nat) : Nat :=
  match op with
  | ompi_op_t.ompi_mpi_op_replace => o
  | ompi_op_t.ompi_mpi_op_no_op => t
  | ompi_op_t.ompi_mpi_op_sum => (t + o) % 2 ^ bits
  | ompi_op_t.ompi_mpi_op_prod => (t * o) % 2 ^ bits
  | ompi_op_t.ompi_mpi_op_min => min t o
  | ompi_op_t.ompi_mpi_op_max => max t o
  | ompi_op_t.ompi_mpi_op_band => t &&& o
  | ompi_op_t.ompi_mpi_op_bor => t ||| o
  | ompi_op_t.ompi_mpi_op_bxor => t ^^^ o
  | ompi_op_t.ompi_mpi_op_land => if t ≠ 0 ∧ o ≠ 0 then 1 else 0
  | ompi_op_t.ompi_mpi_op_lor => if t ≠ 0 ∨ o ≠ 0 then 1 else 0
  | ompi_op_t.ompi_mpi_op_lxor => if (t ≠ 0) ≠ (o ≠ 0) then 1 else 0

/-- Modelled from the spec: `reduce (op, src, dst, count, layout)`: element by
element, the destination element becomes destination `op` source. -/
def model_reduce (m : Mem) (op : ompi_op_t) (src dst : Int) :
    Nat → ompi_datatype_t → Mem
  | 0, _ => m
  | n + 1, dt =>
      let m1 := model_reduce m op src dst n dt
      let off : Int := ((dt.size * n : Nat) : Int)
      writeBytes m1 (dst + off)
        (encodeLE dt.size (applyOp op (8 * dt.size)
          (decodeLE (readBytes m1 (dst + off) dt.size))
          (decodeLE (readBytes m1 (src + off) dt.size))))

/-- Modelled from the spec: `transfer (src, dst) -> success|failure`, failing on a
size mismatch of the two descriptors and then leaving the memory as it is. -/
def model_sndrcv (m : Mem) (src dst : Buf) : Int × Mem :=
  if src.bytes = dst.bytes then
    (OMPI_SUCCESS, writeBytes m dst.addr (readBytes m src.addr src.bytes))
  else (OMPI_ERROR, m)

/-- Modelled from the spec: the transfer with reduction, failing on a mismatch of
the two descriptors, else reducing the origin elements into the target. -/
def model_sndrcv_op (m : Mem) (src dst : Buf) (op : ompi_op_t) : Int × Mem :=
  if src.dt = dst.dt ∧ src.count = dst.count then
    (OMPI_SUCCESS, model_reduce m op src.addr dst.addr dst.count dst.dt)
  else (OMPI_ERROR, m)

/-- The concrete environment. -/
def modelEnv : Env :=
  { ompi_datatype_sndrcv := model_sndrcv
    ompi_osc_base_sndrcv_op := model_sndrcv_op
    ompi_op_reduce := fun m op src dst count dt => model_reduce m op src dst count dt }

/-- Modelled from the spec: a transfer with reduction that accepts an origin which
fits in the target, as a receive accepts a shorter message: same layout and an
origin count not above the target count; it reduces the origin elements into the
first elements of the target. -/
def fitting_sndrcv_op (m : Mem) (src dst : Buf) (op : ompi_op_t) : Int × Mem :=
  if src.dt = dst.dt ∧ src.count ≤ dst.count then
    (OMPI_SUCCESS, model_reduce m op src.addr dst.addr src.count dst.dt)
  else (OMPI_ERROR, m)

/-- A second concrete environment, with the transfer with reduction that accepts an
origin shorter than the target. -/
def fittingEnv : Env :=
  { ompi_datatype_sndrcv := model_sndrcv
    ompi_osc_base_sndrcv_op := fitting_sndrcv_op
    ompi_op_reduce := fun m op src dst count dt => model_reduce m op src dst count dt }

/-- A third concrete environment: every transfer and every transfer with reduction
fails with the code `code` and leaves the memory as it is. -/
def failingEnv (code : Int) : Env :=
  { ompi_datatype_sndrcv := fun m _ _ => (code, m)
    ompi_osc_base_sndrcv_op := fun m _ _ _ => (code, m)
    ompi_op_reduce := fun m _ _ _ _ _ => m }

/-- The window tables of the rank `r`: every base address 1000 times the rank,
displacement unit 4. -/
def demoModule (r : Nat) : ompi_osc_fsm_module_t :=
  { comm_rank := r
    bases := fun t => 1000 * (t : Int)
    disp_units := fun _ => 4 }

/-- The 4-byte integer layout. -/
def int32_dt : ompi_datatype_t := ⟨1, 4⟩

/-- A memory for the single-element verbs: the target element (rank 1,
displacement 2, address 1008) holds 5, the origin buffer (address 100) holds 9,
the compare buffer (address 104) holds 5, the result buffer (address 108) holds 0. -/
def demoMem : Mem :=
  writeBytes (memOf 1008 [5, 0, 0, 0]) 100 [9, 0, 0, 0, 5, 0, 0, 0]

/-- The state on `demoMem`, every lock word Unlocked. -/
def demoWorld : World := worldOf demoMem

/-- Three origins 0, 1, 2 each call `ompi_osc_fsm_fetch_and_op` with Sum on the element
of rank 1 at displacement 2; origin `i` has its origin buffer at `100 + 8 i` and
its result buffer at `104 + 8 i`. -/
def rmwCalls : Nat → FetchAndOpCall :=
  fun i =>
    { origin_addr := 100 + 8 * (i : Int)
      result_addr := 104 + 8 * (i : Int)
      dt := int32_dt
      target_disp := 2
      op := ompi_op_t.ompi_mpi_op_sum }

/-- The target element holds 5 and every origin buffer holds 1. -/
def rmwMem : Mem :=
  writeBytes (writeBytes (writeBytes (memOf 1008 [5, 0, 0, 0]) 100 [1, 0, 0, 0])
    108 [1, 0, 0, 0]) 116 [1, 0, 0, 0]

/-- No origin has called yet, every lock word reads Unlocked. -/
def rmwInit : RmwSys :=
  { world := worldOf rmwMem
    pc := fun _ => RmwPc.idle }

/-- Origin 0 calls and runs its first `fsm_atomic_trylock`; origins 1 and 2 call and
run theirs; then 1 and 2 fetch, update and unlock in alternation. -/
def rmwSchedule : List Nat := [0, 0, 1, 1, 2, 2, 1, 2, 1, 2, 1, 2]

/-- The state the schedule leads to. -/
def rmwFinal : RmwSys := RmwSys.run modelEnv demoModule 1 rmwCalls rmwInit rmwSchedule

/-- Every total order of the two completed calls, and of the two completed calls
with the call that is still pending. -/
def rmwOrders : List (List Nat) :=
  [[1, 2], [2, 1], [0, 1, 2], [0, 2, 1], [1, 0, 2], [1, 2, 0], [2, 0, 1], [2, 1, 0]]

/-! # Properties

Lemmas first, then the claims C1 to C13 in order.
-/

/-! ## The byte memory -/

theorem readBytes_length (m : Mem) (a : Int) (n : Nat) : (readBytes m a n).length = n := by
  simp [readBytes]

theorem readBytes_congr (m1 m2 : Mem) (a : Int) (n : Nat)
    (h : ∀ i : Nat, i < n → m1 (a + (i : Int)) = m2 (a + (i : Int))) :
    readBytes m1 a n = readBytes m2 a n := by
  unfold readBytes
  apply List.map_congr_left
  intro i hi
  exact h i (List.mem_range.mp hi)

theorem writeBytes_inside (m : Mem) (a : Int) (bs : List Nat) (i : Nat) (h : i < bs.length) :
    writeBytes m a bs (a + (i : Int)) = bs.getD i 0 := by
  unfold writeBytes
  have h1 : a ≤ a + (i : Int) ∧ a + (i : Int) < a + (bs.length : Int) := by omega
  rw [if_pos h1]
  congr 1
  omega

theorem writeBytes_outside (m : Mem) (a : Int) (bs : List Nat) (x : Int)
    (h : x < a ∨ a + (bs.length : Int) ≤ x) : writeBytes m a bs x = m x := by
  unfold writeBytes
  have h1 : ¬ (a ≤ x ∧ x < a + (bs.length : Int)) := by omega
  rw [if_neg h1]

theorem readBytes_writeBytes_same (m : Mem) (a : Int) (bs : List Nat) :
    readBytes (writeBytes m a bs) a bs.length = bs := by
  apply List.ext_getElem
  · simp [readBytes]
  · intro i h1 h2
    simp only [readBytes, List.getElem_map, List.getElem_range]
    rw [writeBytes_inside m a bs i h2, List.getD_eq_getElem _ _ h2]

theorem readBytes_writeBytes_apart (m : Mem) (a : Int) (bs : List Nat) (b : Int) (n : Nat)
    (h : b + (n : Int) ≤ a ∨ a + (bs.length : Int) ≤ b) :
    readBytes (writeBytes m a bs) b n = readBytes m b n := by
  apply readBytes_congr
  intro i hi
  apply writeBytes_outside
  omega

theorem memcmpBytes_eq_zero_iff (xs ys : List Nat) (h : xs.length = ys.length) :
    memcmpBytes xs ys = 0 ↔ xs = ys := by
  induction xs generalizing ys with
  | nil =>
    cases ys with
    | nil => simp [memcmpBytes]
    | cons b bs => simp at h
  | cons a as ih =>
    cases ys with
    | nil => simp at h
    | cons b bs =>
      simp only [List.length_cons, Nat.add_right_cancel_iff] at h
      simp only [memcmpBytes, List.cons.injEq]
      by_cases h1 : a < b
      · simp [h1]; omega
      · by_cases h2 : b < a
        · simp [h1, h2]; omega
        · have : a = b := by omega
          simp [h1, h2, this, ih bs h]

theorem memcmp_eq_zero_iff (m : Mem) (p q : Int) (n : Nat) :
    0 = memcmp m p q n ↔ readBytes m p n = readBytes m q n := by
  unfold memcmp
  rw [eq_comm, memcmpBytes_eq_zero_iff _ _ (by simp [readBytes_length])]

/-! ## The concrete environment -/

theorem modelEnv_transferFrame : modelEnv.TransferFrame := by
  intro m src dst x hx
  show (model_sndrcv m src dst).2 x = m x
  unfold model_sndrcv
  by_cases h : src.bytes = dst.bytes
  · rw [if_pos h]
    apply writeBytes_outside
    rw [readBytes_length, h]
    omega
  · rw [if_neg h]

theorem modelEnv_transferCopies : modelEnv.TransferCopies := by
  intro m src dst hs
  show readBytes (model_sndrcv m src dst).2 dst.addr src.bytes = _
  unfold model_sndrcv
  by_cases h : src.bytes = dst.bytes
  · rw [if_pos h]
    have := readBytes_writeBytes_same m dst.addr (readBytes m src.addr src.bytes)
    rwa [readBytes_length] at this
  · exfalso
    have : (model_sndrcv m src dst).1 = OMPI_SUCCESS := hs
    unfold model_sndrcv at this
    rw [if_neg h] at this
    exact absurd this (show ¬ OMPI_ERROR = OMPI_SUCCESS by decide)

theorem encodeLE_length (n x : Nat) : (encodeLE n x).length = n := by
  induction n generalizing x with
  | zero => rfl
  | succ k ih => simp [encodeLE, ih]

theorem decodeLE_encodeLE (n x : Nat) : decodeLE (encodeLE n x) = x % 256 ^ n := by
  induction n generalizing x with
  | zero => simp [encodeLE, decodeLE, Nat.mod_one]
  | succ k ih =>
    simp only [encodeLE, decodeLE, ih]
    rw [pow_succ, mul_comm (256 ^ k) 256, Nat.mod_mul, Nat.add_comm]

theorem model_reduce_one (m : Mem) (op : ompi_op_t) (src dst : Int) (dt : ompi_datatype_t) :
    model_reduce m op src dst 1 dt
      = writeBytes m dst (encodeLE dt.size (applyOp op (8 * dt.size)
          (decodeLE (readBytes m dst dt.size)) (decodeLE (readBytes m src dt.size)))) := by
  simp [model_reduce]

/-! ## The AtomicLock -/

theorem fsm_atomic_trylock_swap (module : ompi_osc_fsm_module_t) (target_rank : Nat) (w : Int) :
    fsm_atomic_trylock true module target_rank w
      = (if w = OPAL_ATOMIC_LOCK_UNLOCKED then 1 else 0, OPAL_ATOMIC_LOCK_LOCKED) := by
  unfold fsm_atomic_trylock opal_atomic_swap fi_fetch_atomic_write
  by_cases h : target_rank = module.comm_rank <;> simp [h]

/-- The compare-and-swap strategy on a local target: the value returned is 1 when
the exchange failed, that is when the word was not Unlocked. -/
theorem fsm_atomic_trylock_cswap_local (module : ompi_osc_fsm_module_t) (target_rank : Nat)
    (w : Int) (h : target_rank = module.comm_rank) :
    fsm_atomic_trylock false module target_rank w
      = (if w = OPAL_ATOMIC_LOCK_UNLOCKED then 0 else 1,
         if w = OPAL_ATOMIC_LOCK_UNLOCKED then OPAL_ATOMIC_LOCK_LOCKED else w) := by
  unfold fsm_atomic_trylock opal_atomic_compare_exchange_strong
  by_cases hw : w = OPAL_ATOMIC_LOCK_UNLOCKED <;> simp [h, hw]

/-- The compare-and-swap strategy on a remote target: the value returned is 1 when
the word was Unlocked. -/
theorem fsm_atomic_trylock_cswap_remote (module : ompi_osc_fsm_module_t) (target_rank : Nat)
    (w : Int) (h : target_rank ≠ module.comm_rank) :
    fsm_atomic_trylock false module target_rank w
      = (if w = OPAL_ATOMIC_LOCK_UNLOCKED then 1 else 0,
         if w = OPAL_ATOMIC_LOCK_UNLOCKED then OPAL_ATOMIC_LOCK_LOCKED else w) := by
  unfold fsm_atomic_trylock fi_compare_atomic_cswap
  by_cases hw : w = OPAL_ATOMIC_LOCK_UNLOCKED <;> simp [h, hw]

/-- Left alone on a word that reads Locked, the inner loop never ends. -/
theorem fsm_atomic_lock_loop_inner_spins (use_swap : Bool) (module : ompi_osc_fsm_module_t)
    (target_rank : Nat) (fuel k : Nat) (tr : List Event) :
    fsm_atomic_lock_loop use_swap module target_rank noInterference fuel LockPc.inner k
      OPAL_ATOMIC_LOCK_LOCKED tr = none := by
  induction fuel generalizing k tr with
  | zero => rfl
  | succ n ih =>
    simp only [fsm_atomic_lock_loop, noInterference, if_true]
    exact ih _ _

/-- Left alone on a word that reads Unlocked, `fsm_atomic_lock` never returns:
its own exchange makes the word Locked, the non-zero value of
`fsm_atomic_trylock` enters the loop body, and the inner loop spins on the
caller's own Locked. -/
theorem fsm_atomic_lock_word_uncontended_spins (module : ompi_osc_fsm_module_t)
    (target_rank : Nat) (fuel : Nat) :
    fsm_atomic_lock_word module target_rank noInterference fuel OPAL_ATOMIC_LOCK_UNLOCKED
      = none := by
  cases fuel with
  | zero => rfl
  | succ n =>
    simp only [fsm_atomic_lock_word, OSC_FSM_USE_SWAP_INSTEAD_OF_CSWAP, fsm_atomic_lock_loop,
      noInterference, fsm_atomic_trylock_swap]
    simp only [if_true, ne_eq, one_ne_zero, not_false_eq_true]
    exact fsm_atomic_lock_loop_inner_spins true module target_rank n 1 _

theorem fsm_atomic_lock_uncontended_spins (module : ompi_osc_fsm_module_t)
    (target_rank : Nat) (fuel : Nat) (w : World)
    (h : w.accumulate_lock target_rank = OPAL_ATOMIC_LOCK_UNLOCKED) :
    fsm_atomic_lock module target_rank noInterference fuel w = none := by
  simp [fsm_atomic_lock, h, fsm_atomic_lock_word_uncontended_spins]

/-- Whatever the word and the interference, a run of the loops of `fsm_atomic_lock`
that ends does so on an `fsm_atomic_trylock` that returned zero, that is, under
the swap strategy, one that observed a prior value other than Unlocked. -/
theorem fsm_atomic_lock_loop_returns (module : ompi_osc_fsm_module_t)
    (target_rank : Nat) (intf : Interference) (fuel : Nat) (pc : LockPc) (k : Nat) (w : Int)
    (tr : List Event) (r : LockRun)
    (h : fsm_atomic_lock_loop true module target_rank intf fuel pc k w tr = some r) :
    ∃ prev pre, prev ≠ OPAL_ATOMIC_LOCK_UNLOCKED ∧
      r.steps = tr ++ pre ++ [Event.trylock target_rank prev 0] ∧
      r.word = OPAL_ATOMIC_LOCK_LOCKED ∧
      (∀ e ∈ pre, (∃ p v, e = Event.trylock target_rank p v) ∨ e = Event.spin target_rank) := by
  induction fuel generalizing pc k w tr with
  | zero => simp [fsm_atomic_lock_loop] at h
  | succ n ih =>
    cases pc with
    | outer =>
      simp only [fsm_atomic_lock_loop, fsm_atomic_trylock_swap] at h
      by_cases hw : intf k w = OPAL_ATOMIC_LOCK_UNLOCKED
      · simp only [hw, if_true, ne_eq, one_ne_zero, not_false_eq_true] at h
        obtain ⟨prev, pre, h1, h2, h3, h4⟩ := ih _ _ _ _ h
        refine ⟨prev, Event.trylock target_rank OPAL_ATOMIC_LOCK_UNLOCKED 1 :: pre, h1, ?_, h3, ?_⟩
        · simp [h2]
        · intro e he
          rcases List.mem_cons.mp he with he | he
          · exact Or.inl ⟨_, _, he⟩
          · exact h4 e he
      · simp only [hw, if_false, ne_eq, not_true_eq_false] at h
        cases h
        exact ⟨intf k w, [], hw, by simp, rfl, by simp⟩
    | inner =>
      simp only [fsm_atomic_lock_loop] at h
      by_cases hw : intf k w = OPAL_ATOMIC_LOCK_LOCKED
      · simp only [hw, if_true] at h
        obtain ⟨prev, pre, h1, h2, h3, h4⟩ := ih _ _ _ _ h
        refine ⟨prev, Event.spin target_rank :: pre, h1, ?_, h3, ?_⟩
        · simp [h2]
        · intro e he
          rcases List.mem_cons.mp he with he | he
          · exact Or.inr he
          · exact h4 e he
      · simp only [hw, if_false] at h
        exact ih _ _ _ _ h

/-- The general form of the behaviour behind C3: for every initial lock word, every
interference and every fuel, a `fsm_atomic_lock` that returns has issued, as its last
step, an `fsm_atomic_trylock` that observed a prior value other than Unlocked and
returned zero. -/
theorem fsm_atomic_lock_word_returns_on_observed_locked (module : ompi_osc_fsm_module_t)
    (target_rank : Nat) (intf : Interference) (fuel : Nat) (w : Int) (r : LockRun)
    (h : fsm_atomic_lock_word module target_rank intf fuel w = some r) :
    ∃ prev, prev ≠ OPAL_ATOMIC_LOCK_UNLOCKED ∧
      r.steps.getLast? = some (Event.trylock target_rank prev 0) := by
  obtain ⟨prev, pre, h1, h2, _, _⟩ :=
    fsm_atomic_lock_loop_returns module target_rank intf fuel _ _ _ _ r h
  exact ⟨prev, h1, by simp [h2]⟩

theorem fsm_atomic_lock_returns (module : ompi_osc_fsm_module_t) (target_rank : Nat)
    (intf : Interference) (fuel : Nat) (w w1 : World)
    (h : fsm_atomic_lock module target_rank intf fuel w = some w1) :
    ∃ steps, w1.mem = w.mem ∧ w1.trace = w.trace ++ steps ∧
      (∀ e ∈ steps, e.isLockStep = true) ∧
      w1.accumulate_lock target_rank = OPAL_ATOMIC_LOCK_LOCKED := by
  unfold fsm_atomic_lock at h
  cases hr : fsm_atomic_lock_word module target_rank intf fuel (w.accumulate_lock target_rank) with
  | none => rw [hr] at h; simp at h
  | some r =>
    rw [hr] at h
    simp only [Option.map_some', Option.some.injEq] at h
    subst h
    obtain ⟨prev, pre, _, h2, h3, h4⟩ :=
      fsm_atomic_lock_loop_returns module target_rank intf fuel _ _ _ _ r hr
    refine ⟨r.steps, rfl, rfl, ?_, by simp [h3]⟩
    intro e he
    rw [h2] at he
    simp only [List.nil_append, List.mem_append, List.mem_singleton] at he
    rcases he with he | he
    · rcases h4 e he with ⟨p, v, hp⟩ | hp <;> subst hp <;> rfl
    · subst he; rfl

theorem countP_isCommit_lockSteps (steps : List Event)
    (h : ∀ e ∈ steps, e.isLockStep = true) : steps.countP Event.isCommit = 0 := by
  rw [List.countP_eq_zero]
  intro e he
  have := h e he
  cases e <;> simp_all [Event.isLockStep, Event.isCommit]

theorem countP_isUnlock_lockSteps (steps : List Event)
    (h : ∀ e ∈ steps, e.isLockStep = true) : steps.countP Event.isUnlock = 0 := by
  rw [List.countP_eq_zero]
  intro e he
  have := h e he
  cases e <;> simp_all [Event.isLockStep, Event.isUnlock]

theorem fsm_atomic_unlock_word_eq (module : ompi_osc_fsm_module_t) (target : Nat) (x : Int) :
    fsm_atomic_unlock_word module target x = OPAL_ATOMIC_LOCK_UNLOCKED := by
  unfold fsm_atomic_unlock_word opal_atomic_swap fi_atomic_write
  split <;> rfl

/-- The lock is released exactly once by a verb whose body, run from the state
`fsm_atomic_lock` returned in, releases it exactly once. -/
theorem releasedOnce_of_locked (module : ompi_osc_fsm_module_t) (target : Nat)
    (intf : Interference) (fuel : Nat) (w w1 w' : World)
    (h1 : fsm_atomic_lock module target intf fuel w = some w1)
    (h2 : ReleasedOnce target w1 w') : ReleasedOnce target w w' := by
  obtain ⟨steps, _, ht, hs, _⟩ := fsm_atomic_lock_returns module target intf fuel w w1 h1
  obtain ⟨a, b, c⟩ := h2
  refine ⟨?_, b, c⟩
  rw [a, ht, List.countP_append, countP_isUnlock_lockSteps steps hs, Nat.add_zero]

/-- On a lock word that reads Unlocked and that no other origin writes, none of the
six verbs that take the lock ever returns, whatever the environment, the arguments
and the fuel. -/
theorem locking_verbs_uncontended_never_return (E : Env) (fuel : Nat)
    (module : ompi_osc_fsm_module_t) (origin result : Buf) (compare_addr : Int)
    (target : Nat) (target_disp : Int) (target_count : Nat) (target_dt : ompi_datatype_t)
    (op : ompi_op_t) (w : World)
    (h : w.accumulate_lock target = OPAL_ATOMIC_LOCK_UNLOCKED) :
    ompi_osc_fsm_accumulate E noInterference fuel module origin target target_disp
      target_count target_dt op w = none ∧
    ompi_osc_fsm_raccumulate E noInterference fuel module origin target target_disp
      target_count target_dt op w = none ∧
    ompi_osc_fsm_get_accumulate E noInterference fuel module origin result target target_disp
      target_count target_dt op w = none ∧
    ompi_osc_fsm_rget_accumulate E noInterference fuel module origin result target
      target_disp target_count target_dt op w = none ∧
    ompi_osc_fsm_compare_and_swap noInterference fuel module origin.addr compare_addr
      result.addr target_dt target target_disp w = none ∧
    ompi_osc_fsm_fetch_and_op E noInterference fuel module origin.addr result.addr target_dt
      target target_disp op w = none := by
  have hl := fsm_atomic_lock_uncontended_spins module target fuel w h
  simp [ompi_osc_fsm_accumulate, ompi_osc_fsm_raccumulate, ompi_osc_fsm_get_accumulate,
    ompi_osc_fsm_rget_accumulate, ompi_osc_fsm_compare_and_swap, ompi_osc_fsm_fetch_and_op, hl]

/-! ## The bodies of the verbs, from the return of `fsm_atomic_lock` on -/

/-- What the rest of `ompi_osc_fsm_compare_and_swap` does once `fsm_atomic_lock` has
returned, for a result buffer that overlaps neither the target element nor the
compare and origin buffers: it returns success, result holds the bytes the target
had, and the target holds the origin bytes if its bytes equalled the compare bytes
and is unchanged otherwise. -/
theorem compare_and_swap_locked_spec (module : ompi_osc_fsm_module_t)
    (origin_addr compare_addr result_addr : Int) (dt : ompi_datatype_t)
    (target : Nat) (target_disp : Int) (w : World)
    (hrt : RangesApart result_addr dt.size (remote_address module target target_disp) dt.size)
    (hrc : RangesApart result_addr dt.size compare_addr dt.size)
    (hro : RangesApart result_addr dt.size origin_addr dt.size) :
    (compare_and_swap_locked module origin_addr compare_addr result_addr dt target
        target_disp w).1 = OMPI_SUCCESS ∧
    readBytes (compare_and_swap_locked module origin_addr compare_addr result_addr dt target
        target_disp w).2.mem result_addr dt.size
      = readBytes w.mem (remote_address module target target_disp) dt.size ∧
    (readBytes w.mem (remote_address module target target_disp) dt.size
        = readBytes w.mem compare_addr dt.size →
      readBytes (compare_and_swap_locked module origin_addr compare_addr result_addr dt target
        target_disp w).2.mem (remote_address module target target_disp) dt.size
        = readBytes w.mem origin_addr dt.size) ∧
    (readBytes w.mem (remote_address module target target_disp) dt.size
        ≠ readBytes w.mem compare_addr dt.size →
      readBytes (compare_and_swap_locked module origin_addr compare_addr result_addr dt target
        target_disp w).2.mem (remote_address module target target_disp) dt.size
        = readBytes w.mem (remote_address module target target_disp) dt.size) := by
  unfold RangesApart at hrt hrc hro
  set remote := remote_address module target target_disp with hremote
  have hlen : ∀ (m : Mem) (a : Int), (readBytes m a (dt.size * 1)).length = dt.size := by
    intro m a; simp [readBytes_length]
  -- the memory after the fetch
  have hfetch_result : readBytes (ompi_datatype_copy_content_same_ddt w.mem dt 1 result_addr remote)
      result_addr dt.size = readBytes w.mem remote dt.size := by
    unfold ompi_datatype_copy_content_same_ddt
    have := readBytes_writeBytes_same w.mem result_addr (readBytes w.mem remote (dt.size * 1))
    rw [hlen] at this
    simpa using this
  have hfetch_other : ∀ b : Int, RangesApart result_addr dt.size b dt.size →
      readBytes (ompi_datatype_copy_content_same_ddt w.mem dt 1 result_addr remote) b dt.size
        = readBytes w.mem b dt.size := by
    intro b hb
    unfold ompi_datatype_copy_content_same_ddt
    apply readBytes_writeBytes_apart
    rw [hlen]
    unfold RangesApart at hb
    omega
  have hcmp : (0 = memcmp (ompi_datatype_copy_content_same_ddt w.mem dt 1 result_addr remote)
      result_addr compare_addr dt.size) ↔
      readBytes w.mem remote dt.size = readBytes w.mem compare_addr dt.size := by
    rw [memcmp_eq_zero_iff, hfetch_result, hfetch_other compare_addr hrc]
  unfold compare_and_swap_locked
  simp only [osc_fsm_invalidate, osc_fsm_commit, fsm_atomic_unlock, ← hremote]
  by_cases heq : readBytes w.mem remote dt.size = readBytes w.mem compare_addr dt.size
  · rw [if_pos (hcmp.mpr heq)]
    refine ⟨rfl, ?_, ?_, fun h => absurd heq h⟩
    · show readBytes (ompi_datatype_copy_content_same_ddt _ dt 1 remote origin_addr) result_addr
        dt.size = _
      rw [← hfetch_result]
      unfold ompi_datatype_copy_content_same_ddt
      apply readBytes_writeBytes_apart
      simp only [readBytes_length]
      omega
    · intro _
      show readBytes (ompi_datatype_copy_content_same_ddt _ dt 1 remote origin_addr) remote
        dt.size = _
      rw [← hfetch_other origin_addr hro]
      have := readBytes_writeBytes_same
        (ompi_datatype_copy_content_same_ddt w.mem dt 1 result_addr remote) remote
        (readBytes (ompi_datatype_copy_content_same_ddt w.mem dt 1 result_addr remote)
          origin_addr (dt.size * 1))
      rw [hlen] at this
      simpa [ompi_datatype_copy_content_same_ddt] using this
  · rw [if_neg (fun h => heq (hcmp.mp h))]
    refine ⟨rfl, hfetch_result, fun h => absurd h heq, fun _ => ?_⟩
    exact hfetch_other remote hrt

theorem accumulate_locked_post (E : Env) (module : ompi_osc_fsm_module_t) (origin : Buf)
    (target : Nat) (target_disp : Int) (target_count : Nat) (target_dt : ompi_datatype_t)
    (op : ompi_op_t) (w1 : World) :
    (accumulate_locked E module origin target target_disp target_count target_dt op w1).1
      = (mutation_primitive E origin
          ⟨remote_address module target target_disp, target_count, target_dt⟩ op w1.mem).1 ∧
    (accumulate_locked E module origin target target_disp target_count target_dt op w1).2.mem
      = (mutation_primitive E origin
          ⟨remote_address module target target_disp, target_count, target_dt⟩ op w1.mem).2 ∧
    ReleasedOnce target w1
      (accumulate_locked E module origin target target_disp target_count target_dt op w1).2 := by
  unfold accumulate_locked mutation_primitive ReleasedOnce
  by_cases hr : op = ompi_op_t.ompi_mpi_op_replace
  · subst hr
    simp [sndrcv_store, osc_fsm_commit, fsm_atomic_unlock, fsm_atomic_unlock_word_eq,
      List.countP_append, List.countP_cons, Event.isUnlock]
  · by_cases hn : op = ompi_op_t.ompi_mpi_op_no_op
    · subst hn
      simp [sndrcv_op_store, osc_fsm_invalidate, fsm_atomic_unlock, fsm_atomic_unlock_word_eq,
        List.countP_append, List.countP_cons, Event.isUnlock]
    · simp [hr, hn, sndrcv_op_store, osc_fsm_invalidate, osc_fsm_commit, fsm_atomic_unlock,
        fsm_atomic_unlock_word_eq, List.countP_append, List.countP_cons, Event.isUnlock]

theorem get_accumulate_locked_post (E : Env) (module : ompi_osc_fsm_module_t)
    (origin result : Buf) (target : Nat) (target_disp : Int) (target_count : Nat)
    (target_dt : ompi_datatype_t) (op : ompi_op_t) (w1 : World) :
    ReleasedOnce target w1 (get_accumulate_locked E module origin result target target_disp
      target_count target_dt op w1).2 ∧
    ((E.ompi_datatype_sndrcv w1.mem
        ⟨remote_address module target target_disp, target_count, target_dt⟩ result).1
        ≠ OMPI_SUCCESS →
      (get_accumulate_locked E module origin result target target_disp target_count target_dt
        op w1).1 = (E.ompi_datatype_sndrcv w1.mem
          ⟨remote_address module target target_disp, target_count, target_dt⟩ result).1 ∧
      (get_accumulate_locked E module origin result target target_disp target_count target_dt
        op w1).2.mem = (E.ompi_datatype_sndrcv w1.mem
          ⟨remote_address module target target_disp, target_count, target_dt⟩ result).2) ∧
    ((E.ompi_datatype_sndrcv w1.mem
        ⟨remote_address module target target_disp, target_count, target_dt⟩ result).1
        = OMPI_SUCCESS → op ≠ ompi_op_t.ompi_mpi_op_no_op →
      (get_accumulate_locked E module origin result target target_disp target_count target_dt
        op w1).1 = (mutation_primitive E origin
          ⟨remote_address module target target_disp, target_count, target_dt⟩ op
          (E.ompi_datatype_sndrcv w1.mem
            ⟨remote_address module target target_disp, target_count, target_dt⟩ result).2).1 ∧
      (get_accumulate_locked E module origin result target target_disp target_count target_dt
        op w1).2.mem = (mutation_primitive E origin
          ⟨remote_address module target target_disp, target_count, target_dt⟩ op
          (E.ompi_datatype_sndrcv w1.mem
            ⟨remote_address module target target_disp, target_count, target_dt⟩ result).2).2) := by
  unfold get_accumulate_locked mutation_primitive ReleasedOnce
  simp only [sndrcv_fetch, osc_fsm_invalidate]
  by_cases hf : OMPI_SUCCESS ≠ (E.ompi_datatype_sndrcv w1.mem
      ⟨remote_address module target target_disp, target_count, target_dt⟩ result).1 ∨
      op = ompi_op_t.ompi_mpi_op_no_op
  · rw [if_pos hf]
    refine ⟨?_, fun _ => ⟨rfl, rfl⟩, fun h1 h2 => ?_⟩
    · simp [fsm_atomic_unlock, fsm_atomic_unlock_word_eq, List.countP_append,
        List.countP_cons, Event.isUnlock]
    · rcases hf with hf | hf
      · exact absurd h1.symm hf
      · exact absurd hf h2
  · rw [if_neg hf]
    have hs : (E.ompi_datatype_sndrcv w1.mem
      ⟨remote_address module target target_disp, target_count, target_dt⟩ result).1
        = OMPI_SUCCESS := by
      by_contra h
      exact hf (Or.inl (fun h' => h h'.symm))
    by_cases hr : op = ompi_op_t.ompi_mpi_op_replace
    · simp only [hr, if_true, sndrcv_store, osc_fsm_commit]
      refine ⟨?_, fun h => absurd hs h, fun _ _ => by simp [fsm_atomic_unlock]⟩
      simp [fsm_atomic_unlock, fsm_atomic_unlock_word_eq, List.countP_append,
        List.countP_cons, Event.isUnlock]
    · simp only [hr, if_false, sndrcv_op_store, osc_fsm_commit]
      refine ⟨?_, fun h => absurd hs h, fun _ _ => by simp [fsm_atomic_unlock]⟩
      simp [fsm_atomic_unlock, fsm_atomic_unlock_word_eq, List.countP_append,
        List.countP_cons, Event.isUnlock]

theorem rget_accumulate_locked_post (E : Env) (module : ompi_osc_fsm_module_t)
    (origin result : Buf) (target : Nat) (target_disp : Int) (target_count : Nat)
    (target_dt : ompi_datatype_t) (op : ompi_op_t) (w1 : World) :
    (rget_accumulate_locked E module origin result target target_disp target_count target_dt
        op w1).2.1 = some ompi_request_empty ∧
    ReleasedOnce target w1 (rget_accumulate_locked E module origin result target target_disp
      target_count target_dt op w1).2.2 ∧
    ((E.ompi_datatype_sndrcv w1.mem
        ⟨remote_address module target target_disp, target_count, target_dt⟩ result).1
        ≠ OMPI_SUCCESS →
      (rget_accumulate_locked E module origin result target target_disp target_count target_dt
        op w1).1 = (E.ompi_datatype_sndrcv w1.mem
          ⟨remote_address module target target_disp, target_count, target_dt⟩ result).1 ∧
      (rget_accumulate_locked E module origin result target target_disp target_count target_dt
        op w1).2.2.mem = (E.ompi_datatype_sndrcv w1.mem
          ⟨remote_address module target target_disp, target_count, target_dt⟩ result).2) ∧
    ((E.ompi_datatype_sndrcv w1.mem
        ⟨remote_address module target target_disp, target_count, target_dt⟩ result).1
        = OMPI_SUCCESS → op = ompi_op_t.ompi_mpi_op_no_op →
      (rget_accumulate_locked E module origin result target target_disp target_count target_dt
        op w1).1 = OMPI_SUCCESS) ∧
    ((E.ompi_datatype_sndrcv w1.mem
        ⟨remote_address module target target_disp, target_count, target_dt⟩ result).1
        = OMPI_SUCCESS → op ≠ ompi_op_t.ompi_mpi_op_no_op →
      (rget_accumulate_locked E module origin result target target_disp target_count target_dt
        op w1).1 = (mutation_primitive E origin
          ⟨remote_address module target target_disp, target_count, target_dt⟩ op
          (E.ompi_datatype_sndrcv w1.mem
            ⟨remote_address module target target_disp, target_count, target_dt⟩ result).2).1 ∧
      (rget_accumulate_locked E module origin result target target_disp target_count target_dt
        op w1).2.2.mem = (mutation_primitive E origin
          ⟨remote_address module target target_disp, target_count, target_dt⟩ op
          (E.ompi_datatype_sndrcv w1.mem
            ⟨remote_address module target target_disp, target_count, target_dt⟩ result).2).2) := by
  unfold rget_accumulate_locked mutation_primitive ReleasedOnce
  simp only [sndrcv_fetch]
  by_cases hf : OMPI_SUCCESS ≠ (E.ompi_datatype_sndrcv w1.mem
      ⟨remote_address module target target_disp, target_count, target_dt⟩ result).1 ∨
      op = ompi_op_t.ompi_mpi_op_no_op
  · rw [if_pos hf]
    refine ⟨rfl, ?_, fun _ => ⟨rfl, rfl⟩, fun h1 _ => h1, fun h1 h2 => ?_⟩
    · simp [fsm_atomic_unlock, fsm_atomic_unlock_word_eq, List.countP_append,
        List.countP_cons, Event.isUnlock]
    · rcases hf with hf | hf
      · exact absurd h1.symm hf
      · exact absurd hf h2
  · rw [if_neg hf]
    have hs : (E.ompi_datatype_sndrcv w1.mem
      ⟨remote_address module target target_disp, target_count, target_dt⟩ result).1
        = OMPI_SUCCESS := by
      by_contra h
      exact hf (Or.inl (fun h' => h h'.symm))
    have hn : op ≠ ompi_op_t.ompi_mpi_op_no_op := fun h => hf (Or.inr h)
    by_cases hr : op = ompi_op_t.ompi_mpi_op_replace
    · simp only [hr, if_true, sndrcv_store, osc_fsm_commit]
      refine ⟨by simp, ?_, fun h => absurd hs h, fun _ h => absurd (hr ▸ h) hn,
        fun _ _ => by simp [fsm_atomic_unlock]⟩
      simp [fsm_atomic_unlock, fsm_atomic_unlock_word_eq, List.countP_append,
        List.countP_cons, Event.isUnlock]
    · simp only [hr, if_false, sndrcv_op_store, osc_fsm_invalidate, osc_fsm_commit]
      refine ⟨by simp, ?_, fun h => absurd hs h, fun _ h => absurd h hn, fun _ _ => by simp [fsm_atomic_unlock]⟩
      simp [fsm_atomic_unlock, fsm_atomic_unlock_word_eq, List.countP_append,
        List.countP_cons, Event.isUnlock]

/-- With the operator NoOp, `ompi_osc_fsm_fetch_and_op` fetches and writes nothing else. -/
theorem fetch_and_op_no_op_frame (E : Env) (intf : Interference) (fuel : Nat)
    (module : ompi_osc_fsm_module_t) (origin_addr result_addr : Int) (dt : ompi_datatype_t)
    (target : Nat) (target_disp : Int) (w : World)
    (hapart : RangesApart result_addr dt.size (remote_address module target target_disp) dt.size)
    (hlock : (fsm_atomic_lock module target intf fuel w).isSome = true) :
    ∃ w', ompi_osc_fsm_fetch_and_op E intf fuel module origin_addr result_addr dt target
        target_disp ompi_op_t.ompi_mpi_op_no_op w = some (OMPI_SUCCESS, w') ∧
      readBytes w'.mem (remote_address module target target_disp) dt.size
        = readBytes w.mem (remote_address module target target_disp) dt.size ∧
      w'.trace.countP Event.isCommit = w.trace.countP Event.isCommit ∧
      readBytes w'.mem result_addr dt.size
        = readBytes w.mem (remote_address module target target_disp) dt.size := by
  obtain ⟨w1, hw1⟩ := Option.isSome_iff_exists.mp hlock
  obtain ⟨steps, hm, ht, hs, _⟩ := fsm_atomic_lock_returns module target intf fuel w w1 hw1
  unfold RangesApart at hapart
  refine ⟨(fetch_and_op_locked E module origin_addr result_addr dt target target_disp
    ompi_op_t.ompi_mpi_op_no_op w1).2, ?_, ?_, ?_, ?_⟩
  · simp only [ompi_osc_fsm_fetch_and_op, hw1, Option.map_some', fetch_and_op_locked, if_true]
  · simp only [fetch_and_op_locked, if_true, fsm_atomic_unlock, osc_fsm_invalidate,
      ompi_datatype_copy_content_same_ddt, hm]
    apply readBytes_writeBytes_apart
    rw [readBytes_length]
    omega
  · simp only [fetch_and_op_locked, if_true, fsm_atomic_unlock, osc_fsm_invalidate, ht,
      List.countP_append,
      countP_isCommit_lockSteps steps hs]
    simp [List.countP_cons, Event.isCommit]
  · simp only [fetch_and_op_locked, if_true, fsm_atomic_unlock, osc_fsm_invalidate,
      ompi_datatype_copy_content_same_ddt, hm]
    have := readBytes_writeBytes_same w.mem result_addr
      (readBytes w.mem (remote_address module target target_disp) (dt.size * 1))
    rw [readBytes_length] at this
    simpa using this

/-- With the operator NoOp, `ompi_osc_fsm_get_accumulate` fetches and writes nothing else. -/
theorem get_accumulate_no_op_frame (E : Env) (hframe : E.TransferFrame)
    (hcopies : E.TransferCopies) (intf : Interference) (fuel : Nat)
    (module : ompi_osc_fsm_module_t) (origin result : Buf)
    (target : Nat) (target_disp : Int) (target_count : Nat) (target_dt : ompi_datatype_t)
    (w : World)
    (hapart : RangesApart result.addr result.bytes
      (remote_address module target target_disp) (target_dt.size * target_count))
    (hlock : (fsm_atomic_lock module target intf fuel w).isSome = true) :
    ∃ w', ompi_osc_fsm_get_accumulate E intf fuel module origin result target target_disp
        target_count target_dt ompi_op_t.ompi_mpi_op_no_op w
        = some ((E.ompi_datatype_sndrcv w.mem
            ⟨remote_address module target target_disp, target_count, target_dt⟩ result).1, w') ∧
      readBytes w'.mem (remote_address module target target_disp) (target_dt.size * target_count)
        = readBytes w.mem (remote_address module target target_disp)
            (target_dt.size * target_count) ∧
      w'.trace.countP Event.isCommit = w.trace.countP Event.isCommit ∧
      ((E.ompi_datatype_sndrcv w.mem
            ⟨remote_address module target target_disp, target_count, target_dt⟩ result).1
          = OMPI_SUCCESS →
        readBytes w'.mem result.addr (target_dt.size * target_count)
          = readBytes w.mem (remote_address module target target_disp)
              (target_dt.size * target_count)) := by
  obtain ⟨w1, hw1⟩ := Option.isSome_iff_exists.mp hlock
  obtain ⟨steps, hm, ht, hs, _⟩ := fsm_atomic_lock_returns module target intf fuel w w1 hw1
  unfold RangesApart at hapart
  refine ⟨(get_accumulate_locked E module origin result target target_disp target_count
    target_dt ompi_op_t.ompi_mpi_op_no_op w1).2, ?_, ?_, ?_, ?_⟩
  · simp only [ompi_osc_fsm_get_accumulate, hw1, Option.map_some', get_accumulate_locked,
      or_true, if_true, sndrcv_fetch, osc_fsm_invalidate, hm]
  · simp only [get_accumulate_locked, or_true, if_true, sndrcv_fetch, osc_fsm_invalidate,
      fsm_atomic_unlock, hm]
    apply readBytes_congr
    intro i hi
    apply hframe
    omega
  · simp only [get_accumulate_locked, or_true, if_true, sndrcv_fetch, osc_fsm_invalidate,
      fsm_atomic_unlock, ht, List.countP_append, countP_isCommit_lockSteps steps hs]
    simp [List.countP_cons, Event.isCommit]
  · intro hs
    simp only [get_accumulate_locked, or_true, if_true, sndrcv_fetch, osc_fsm_invalidate,
      fsm_atomic_unlock, hm]
    exact hcopies w.mem ⟨remote_address module target target_disp, target_count, target_dt⟩
      result hs

/-- With the operator NoOp, `ompi_osc_fsm_rget_accumulate` fetches and writes nothing else. -/
theorem rget_accumulate_no_op_frame (E : Env) (hframe : E.TransferFrame)
    (hcopies : E.TransferCopies) (intf : Interference) (fuel : Nat)
    (module : ompi_osc_fsm_module_t) (origin result : Buf)
    (target : Nat) (target_disp : Int) (target_count : Nat) (target_dt : ompi_datatype_t)
    (w : World)
    (hapart : RangesApart result.addr result.bytes
      (remote_address module target target_disp) (target_dt.size * target_count))
    (hlock : (fsm_atomic_lock module target intf fuel w).isSome = true) :
    ∃ w', ompi_osc_fsm_rget_accumulate E intf fuel module origin result target target_disp
        target_count target_dt ompi_op_t.ompi_mpi_op_no_op w
        = some ((E.ompi_datatype_sndrcv w.mem
            ⟨remote_address module target target_disp, target_count, target_dt⟩ result).1,
            some ompi_request_empty, w') ∧
      readBytes w'.mem (remote_address module target target_disp) (target_dt.size * target_count)
        = readBytes w.mem (remote_address module target target_disp)
            (target_dt.size * target_count) ∧
      w'.trace.countP Event.isCommit = w.trace.countP Event.isCommit ∧
      ((E.ompi_datatype_sndrcv w.mem
            ⟨remote_address module target target_disp, target_count, target_dt⟩ result).1
          = OMPI_SUCCESS →
        readBytes w'.mem result.addr (target_dt.size * target_count)
          = readBytes w.mem (remote_address module target target_disp)
              (target_dt.size * target_count)) := by
  obtain ⟨w1, hw1⟩ := Option.isSome_iff_exists.mp hlock
  obtain ⟨steps, hm, ht, hs, _⟩ := fsm_atomic_lock_returns module target intf fuel w w1 hw1
  unfold RangesApart at hapart
  refine ⟨(rget_accumulate_locked E module origin result target target_disp target_count
    target_dt ompi_op_t.ompi_mpi_op_no_op w1).2.2, ?_, ?_, ?_, ?_⟩
  · simp only [ompi_osc_fsm_rget_accumulate, hw1, Option.map_some', rget_accumulate_locked,
      or_true, if_true, sndrcv_fetch, hm]
  · simp only [rget_accumulate_locked, or_true, if_true, sndrcv_fetch,
      fsm_atomic_unlock, hm]
    apply readBytes_congr
    intro i hi
    apply hframe
    omega
  · simp only [rget_accumulate_locked, or_true, if_true, sndrcv_fetch,
      fsm_atomic_unlock, ht, List.countP_append, countP_isCommit_lockSteps steps hs]
    simp [List.countP_cons, Event.isCommit]
  · intro hs
    simp only [rget_accumulate_locked, or_true, if_true, sndrcv_fetch,
      fsm_atomic_unlock, hm]
    exact hcopies w.mem ⟨remote_address module target target_disp, target_count, target_dt⟩
      result hs

theorem rput_post (E : Env) (module : ompi_osc_fsm_module_t) (origin : Buf)
    (target : Nat) (target_disp : Int) (target_count : Nat) (target_dt : ompi_datatype_t)
    (w : World) :
    ((ompi_osc_fsm_rput E module origin target target_disp target_count target_dt w).1
        ≠ OMPI_SUCCESS ↔
      (E.ompi_datatype_sndrcv w.mem origin
        ⟨remote_address module target target_disp, target_count, target_dt⟩).1
        ≠ OMPI_SUCCESS) ∧
    ((E.ompi_datatype_sndrcv w.mem origin
        ⟨remote_address module target target_disp, target_count, target_dt⟩).1
        ≠ OMPI_SUCCESS →
      (ompi_osc_fsm_rput E module origin target target_disp target_count target_dt w).1
        = (E.ompi_datatype_sndrcv w.mem origin
          ⟨remote_address module target target_disp, target_count, target_dt⟩).1 ∧
      (ompi_osc_fsm_rput E module origin target target_disp target_count target_dt w).2.1
        = none) ∧
    ((E.ompi_datatype_sndrcv w.mem origin
        ⟨remote_address module target target_disp, target_count, target_dt⟩).1
        = OMPI_SUCCESS →
      (ompi_osc_fsm_rput E module origin target target_disp target_count target_dt w).2.1
        = some ompi_request_empty) := by
  unfold ompi_osc_fsm_rput
  simp only [sndrcv_store]
  by_cases h : OMPI_SUCCESS ≠ (E.ompi_datatype_sndrcv w.mem origin
      ⟨remote_address module target target_disp, target_count, target_dt⟩).1
  · rw [if_pos h]
    exact ⟨Iff.rfl, fun _ => ⟨rfl, rfl⟩, fun h' => absurd h'.symm h⟩
  · rw [if_neg h]
    have h' := (not_not.mp h).symm
    exact ⟨⟨fun a => absurd rfl a, fun a => absurd h' a⟩, fun a => absurd h' a, fun _ => rfl⟩

theorem rget_post (E : Env) (module : ompi_osc_fsm_module_t) (origin : Buf)
    (target : Nat) (target_disp : Int) (target_count : Nat) (target_dt : ompi_datatype_t)
    (w : World) :
    ((ompi_osc_fsm_rget E module origin target target_disp target_count target_dt w).1
        ≠ OMPI_SUCCESS ↔
      (E.ompi_datatype_sndrcv w.mem
        ⟨remote_address module target target_disp, target_count, target_dt⟩ origin).1
        ≠ OMPI_SUCCESS) ∧
    ((E.ompi_datatype_sndrcv w.mem
        ⟨remote_address module target target_disp, target_count, target_dt⟩ origin).1
        ≠ OMPI_SUCCESS →
      (ompi_osc_fsm_rget E module origin target target_disp target_count target_dt w).1
        = (E.ompi_datatype_sndrcv w.mem
          ⟨remote_address module target target_disp, target_count, target_dt⟩ origin).1 ∧
      (ompi_osc_fsm_rget E module origin target target_disp target_count target_dt w).2.1
        = none) ∧
    ((E.ompi_datatype_sndrcv w.mem
        ⟨remote_address module target target_disp, target_count, target_dt⟩ origin).1
        = OMPI_SUCCESS →
      (ompi_osc_fsm_rget E module origin target target_disp target_count target_dt w).2.1
        = some ompi_request_empty) := by
  unfold ompi_osc_fsm_rget
  simp only [sndrcv_fetch]
  by_cases h : OMPI_SUCCESS ≠ (E.ompi_datatype_sndrcv w.mem
      ⟨remote_address module target target_disp, target_count, target_dt⟩ origin).1
  · rw [if_pos h]
    exact ⟨Iff.rfl, fun _ => ⟨rfl, rfl⟩, fun h' => absurd h'.symm h⟩
  · rw [if_neg h]
    have h' := (not_not.mp h).symm
    exact ⟨⟨fun a => absurd rfl a, fun a => absurd h' a⟩, fun a => absurd h' a, fun _ => rfl⟩

/-- Replace then get, from the return of `fsm_atomic_lock` on: when both transfers
report success, and the transfer primitive copies on success, the buffer of the
get holds the bytes of the origin buffer of the accumulate. -/
theorem accumulate_replace_then_get_locked (E : Env) (hcopies : E.TransferCopies)
    (module : ompi_osc_fsm_module_t) (origin back : Buf) (target : Nat) (target_disp : Int)
    (target_count : Nat) (target_dt : ompi_datatype_t) (w1 : World)
    (ho : origin.bytes = target_dt.size * target_count)
    (ha : (accumulate_locked E module origin target target_disp target_count target_dt
      ompi_op_t.ompi_mpi_op_replace w1).1 = OMPI_SUCCESS)
    (hg : (ompi_osc_fsm_get E module back target target_disp target_count target_dt
      (accumulate_locked E module origin target target_disp target_count target_dt
        ompi_op_t.ompi_mpi_op_replace w1).2).1 = OMPI_SUCCESS) :
    readBytes (ompi_osc_fsm_get E module back target target_disp target_count target_dt
      (accumulate_locked E module origin target target_disp target_count target_dt
        ompi_op_t.ompi_mpi_op_replace w1).2).2.mem back.addr (target_dt.size * target_count)
      = readBytes w1.mem origin.addr (target_dt.size * target_count) := by
  obtain ⟨h1, h2, _⟩ := accumulate_locked_post E module origin target target_disp
    target_count target_dt ompi_op_t.ompi_mpi_op_replace w1
  rw [h1] at ha
  simp only [mutation_primitive, if_true] at ha h2
  have c1 := hcopies w1.mem origin
    ⟨remote_address module target target_disp, target_count, target_dt⟩ ha
  simp only [ompi_osc_fsm_get, sndrcv_fetch] at hg ⊢
  have c2 := hcopies _ ⟨remote_address module target target_disp, target_count, target_dt⟩
    back hg
  simp only [Buf.bytes] at c1 c2 ho
  rw [c2, h2, ← ho]
  exact c1

/-- One accumulate with Sum of one element, from the return of `fsm_atomic_lock` on, in
the concrete environment: it succeeds, the target element becomes the sum modulo
`2 ^ (8 * size)`, and no byte outside the target element changes. -/
theorem accumulate_sum_locked_model (module : ompi_osc_fsm_module_t) (o : Int)
    (dt : ompi_datatype_t) (target : Nat) (target_disp : Int) (w : World) :
    (accumulate_locked modelEnv module ⟨o, 1, dt⟩ target target_disp 1 dt
        ompi_op_t.ompi_mpi_op_sum w).1 = OMPI_SUCCESS ∧
    decodeLE (readBytes (accumulate_locked modelEnv module ⟨o, 1, dt⟩ target target_disp 1 dt
        ompi_op_t.ompi_mpi_op_sum w).2.mem (remote_address module target target_disp) dt.size)
      = (decodeLE (readBytes w.mem (remote_address module target target_disp) dt.size)
          + decodeLE (readBytes w.mem o dt.size)) % 2 ^ (8 * dt.size) ∧
    (∀ (b : Int), RangesApart b dt.size (remote_address module target target_disp) dt.size →
      readBytes (accumulate_locked modelEnv module ⟨o, 1, dt⟩ target target_disp 1 dt
        ompi_op_t.ompi_mpi_op_sum w).2.mem b dt.size = readBytes w.mem b dt.size) := by
  obtain ⟨h1, h2, _⟩ := accumulate_locked_post modelEnv module ⟨o, 1, dt⟩ target target_disp
    1 dt ompi_op_t.ompi_mpi_op_sum w
  have hp : mutation_primitive modelEnv ⟨o, 1, dt⟩
      ⟨remote_address module target target_disp, 1, dt⟩ ompi_op_t.ompi_mpi_op_sum w.mem
      = (OMPI_SUCCESS, model_reduce w.mem ompi_op_t.ompi_mpi_op_sum o
          (remote_address module target target_disp) 1 dt) := by
    simp [mutation_primitive, modelEnv, model_sndrcv_op]
  rw [hp] at h1 h2
  rw [h2, model_reduce_one]
  refine ⟨h1, ?_, ?_⟩
  · have := readBytes_writeBytes_same w.mem (remote_address module target target_disp)
      (encodeLE dt.size (applyOp ompi_op_t.ompi_mpi_op_sum (8 * dt.size)
        (decodeLE (readBytes w.mem (remote_address module target target_disp) dt.size))
        (decodeLE (readBytes w.mem o dt.size))))
    rw [encodeLE_length] at this
    rw [this, decodeLE_encodeLE, applyOp]
    have hpow : 256 ^ dt.size = 2 ^ (8 * dt.size) := by
      rw [pow_mul]; norm_num
    rw [hpow, Nat.mod_mod]
  · intro b hb
    unfold RangesApart at hb
    apply readBytes_writeBytes_apart
    rw [encodeLE_length]
    exact hb

/-- Two accumulates with Sum of one element each, from the return of each
`fsm_atomic_lock` on, in the concrete environment, with origin buffers that do not
overlap the target element: in either order the target element ends as
`t + v1 + v2` modulo `2 ^ (8 * size)`. -/
theorem accumulate_sum_twice_locked_model (module : ompi_osc_fsm_module_t) (o1 o2 : Int)
    (dt : ompi_datatype_t) (target : Nat) (target_disp : Int) (w : World)
    (h1 : RangesApart o1 dt.size (remote_address module target target_disp) dt.size)
    (h2 : RangesApart o2 dt.size (remote_address module target target_disp) dt.size) :
    decodeLE (readBytes (accumulate_locked modelEnv module ⟨o2, 1, dt⟩ target target_disp 1 dt
        ompi_op_t.ompi_mpi_op_sum
        (accumulate_locked modelEnv module ⟨o1, 1, dt⟩ target target_disp 1 dt
          ompi_op_t.ompi_mpi_op_sum w).2).2.mem
        (remote_address module target target_disp) dt.size)
      = (decodeLE (readBytes w.mem (remote_address module target target_disp) dt.size)
          + decodeLE (readBytes w.mem o1 dt.size)
          + decodeLE (readBytes w.mem o2 dt.size)) % 2 ^ (8 * dt.size) ∧
    decodeLE (readBytes (accumulate_locked modelEnv module ⟨o1, 1, dt⟩ target target_disp 1 dt
        ompi_op_t.ompi_mpi_op_sum
        (accumulate_locked modelEnv module ⟨o2, 1, dt⟩ target target_disp 1 dt
          ompi_op_t.ompi_mpi_op_sum w).2).2.mem
        (remote_address module target target_disp) dt.size)
      = (decodeLE (readBytes w.mem (remote_address module target target_disp) dt.size)
          + decodeLE (readBytes w.mem o1 dt.size)
          + decodeLE (readBytes w.mem o2 dt.size)) % 2 ^ (8 * dt.size) := by
  obtain ⟨_, a2, a3⟩ := accumulate_sum_locked_model module o1 dt target target_disp w
  obtain ⟨_, b2, b3⟩ := accumulate_sum_locked_model module o2 dt target target_disp w
  constructor
  · obtain ⟨_, c2, _⟩ := accumulate_sum_locked_model module o2 dt target target_disp
      (accumulate_locked modelEnv module ⟨o1, 1, dt⟩ target target_disp 1 dt
        ompi_op_t.ompi_mpi_op_sum w).2
    rw [c2, a2, a3 o2 h2, Nat.mod_add_mod]
  · obtain ⟨_, c2, _⟩ := accumulate_sum_locked_model module o1 dt target target_disp
      (accumulate_locked modelEnv module ⟨o2, 1, dt⟩ target target_disp 1 dt
        ompi_op_t.ompi_mpi_op_sum w).2
    rw [c2, b2, b3 o1 h1, Nat.mod_add_mod, Nat.add_right_comm]

/-- From the return of `fsm_atomic_lock` on, with the operator NoOp,
`ompi_osc_fsm_fetch_and_op`, `ompi_osc_fsm_get_accumulate` and
`ompi_osc_fsm_rget_accumulate` never write the target. For a result buffer that does
not overlap the target region (and, for the two verbs that fetch through the
transfer primitive, a primitive that writes only its destination buffer and
copies on success), whenever `fsm_atomic_lock` returns the verb returns, with the
code of the fetch; the target bytes are those from before the call; the trace
holds no more commit than before; and when the fetch succeeded the result buffer
holds the target bytes. -/
theorem no_op_fetch_never_writes_target :
    (∀ (E : Env) (intf : Interference) (fuel : Nat) (module : ompi_osc_fsm_module_t)
        (origin_addr result_addr : Int) (dt : ompi_datatype_t) (target : Nat)
        (target_disp : Int) (w : World),
      RangesApart result_addr dt.size (remote_address module target target_disp) dt.size →
      (fsm_atomic_lock module target intf fuel w).isSome = true →
      ∃ w', ompi_osc_fsm_fetch_and_op E intf fuel module origin_addr result_addr dt target
          target_disp ompi_op_t.ompi_mpi_op_no_op w = some (OMPI_SUCCESS, w') ∧
        readBytes w'.mem (remote_address module target target_disp) dt.size
          = readBytes w.mem (remote_address module target target_disp) dt.size ∧
        w'.trace.countP Event.isCommit = w.trace.countP Event.isCommit ∧
        readBytes w'.mem result_addr dt.size
          = readBytes w.mem (remote_address module target target_disp) dt.size) ∧
    (∀ (E : Env), E.TransferFrame → E.TransferCopies →
      ∀ (intf : Interference) (fuel : Nat) (module : ompi_osc_fsm_module_t)
        (origin result : Buf) (target : Nat) (target_disp : Int) (target_count : Nat)
        (target_dt : ompi_datatype_t) (w : World),
      RangesApart result.addr result.bytes
        (remote_address module target target_disp) (target_dt.size * target_count) →
      (fsm_atomic_lock module target intf fuel w).isSome = true →
      ∃ w', ompi_osc_fsm_get_accumulate E intf fuel module origin result target target_disp
          target_count target_dt ompi_op_t.ompi_mpi_op_no_op w
          = some ((E.ompi_datatype_sndrcv w.mem
              ⟨remote_address module target target_disp, target_count, target_dt⟩ result).1,
              w') ∧
        readBytes w'.mem (remote_address module target target_disp)
            (target_dt.size * target_count)
          = readBytes w.mem (remote_address module target target_disp)
              (target_dt.size * target_count) ∧
        w'.trace.countP Event.isCommit = w.trace.countP Event.isCommit ∧
        ((E.ompi_datatype_sndrcv w.mem
              ⟨remote_address module target target_disp, target_count, target_dt⟩ result).1
            = OMPI_SUCCESS →
          readBytes w'.mem result.addr (target_dt.size * target_count)
            = readBytes w.mem (remote_address module target target_disp)
                (target_dt.size * target_count))) ∧
    (∀ (E : Env), E.TransferFrame → E.TransferCopies →
      ∀ (intf : Interference) (fuel : Nat) (module : ompi_osc_fsm_module_t)
        (origin result : Buf) (target : Nat) (target_disp : Int) (target_count : Nat)
        (target_dt : ompi_datatype_t) (w : World),
      RangesApart result.addr result.bytes
        (remote_address module target target_disp) (target_dt.size * target_count) →
      (fsm_atomic_lock module target intf fuel w).isSome = true →
      ∃ w', ompi_osc_fsm_rget_accumulate E intf fuel module origin result target target_disp
          target_count target_dt ompi_op_t.ompi_mpi_op_no_op w
          = some ((E.ompi_datatype_sndrcv w.mem
              ⟨remote_address module target target_disp, target_count, target_dt⟩ result).1,
              some ompi_request_empty, w') ∧
        readBytes w'.mem (remote_address module target target_disp)
            (target_dt.size * target_count)
          = readBytes w.mem (remote_address module target target_disp)
              (target_dt.size * target_count) ∧
        w'.trace.countP Event.isCommit = w.trace.countP Event.isCommit ∧
        ((E.ompi_datatype_sndrcv w.mem
              ⟨remote_address module target target_disp, target_count, target_dt⟩ result).1
            = OMPI_SUCCESS →
          readBytes w'.mem result.addr (target_dt.size * target_count)
            = readBytes w.mem (remote_address module target target_disp)
                (target_dt.size * target_count))) :=
  ⟨fetch_and_op_no_op_frame, get_accumulate_no_op_frame, rget_accumulate_no_op_frame⟩

/-- An instance: the three verbs with NoOp on `demoWorld`, the word having been made
Locked by another origin just before the call; each returns success, the target
element still holds 5 and the result buffer holds 5. -/
theorem no_op_fetch_never_writes_target_witness :
    (∃ w', ompi_osc_fsm_fetch_and_op modelEnv lockedJustBefore 1 (demoModule 0) 100 108
        int32_dt 1 2 ompi_op_t.ompi_mpi_op_no_op demoWorld = some (OMPI_SUCCESS, w') ∧
      readBytes w'.mem 1008 4 = [5, 0, 0, 0] ∧
      w'.trace.countP Event.isCommit = 0 ∧
      readBytes w'.mem 108 4 = [5, 0, 0, 0]) ∧
    (∃ w', ompi_osc_fsm_get_accumulate modelEnv lockedJustBefore 1 (demoModule 0)
        ⟨100, 1, int32_dt⟩ ⟨108, 1, int32_dt⟩ 1 2 1 int32_dt ompi_op_t.ompi_mpi_op_no_op
        demoWorld = some (OMPI_SUCCESS, w') ∧
      readBytes w'.mem 1008 4 = [5, 0, 0, 0] ∧
      w'.trace.countP Event.isCommit = 0 ∧
      readBytes w'.mem 108 4 = [5, 0, 0, 0]) ∧
    (∃ w', ompi_osc_fsm_rget_accumulate modelEnv lockedJustBefore 1 (demoModule 0)
        ⟨100, 1, int32_dt⟩ ⟨108, 1, int32_dt⟩ 1 2 1 int32_dt ompi_op_t.ompi_mpi_op_no_op
        demoWorld = some (OMPI_SUCCESS, some ompi_request_empty, w') ∧
      readBytes w'.mem 1008 4 = [5, 0, 0, 0] ∧
      w'.trace.countP Event.isCommit = 0 ∧
      readBytes w'.mem 108 4 = [5, 0, 0, 0]) := by
  refine ⟨?_, ?_, ?_⟩
  · obtain ⟨w', h1, h2, h3, h4⟩ := no_op_fetch_never_writes_target.1 modelEnv
      lockedJustBefore 1 (demoModule 0) 100 108 int32_dt 1 2 demoWorld
      (Or.inl (by decide)) (by decide)
    exact ⟨w', h1, h2.trans (by decide), h3.trans (by decide), h4.trans (by decide)⟩
  · obtain ⟨w', h1, h2, h3, h4⟩ := no_op_fetch_never_writes_target.2.1 modelEnv
      modelEnv_transferFrame modelEnv_transferCopies
      lockedJustBefore 1 (demoModule 0) ⟨100, 1, int32_dt⟩ ⟨108, 1, int32_dt⟩ 1 2 1 int32_dt
      demoWorld (Or.inl (by decide)) (by decide)
    exact ⟨w', h1, h2.trans (by decide), h3.trans (by decide), (h4 (by decide)).trans (by decide)⟩
  · obtain ⟨w', h1, h2, h3, h4⟩ := no_op_fetch_never_writes_target.2.2 modelEnv
      modelEnv_transferFrame modelEnv_transferCopies
      lockedJustBefore 1 (demoModule 0) ⟨100, 1, int32_dt⟩ ⟨108, 1, int32_dt⟩ 1 2 1 int32_dt
      demoWorld (Or.inl (by decide)) (by decide)
    exact ⟨w', h1, h2.trans (by decide), h3.trans (by decide), (h4 (by decide)).trans (by decide)⟩

/-! ## Step order of the bodies -/

theorem stepOrder_after_lock (tr body : List Event) (h : ∀ e ∈ tr, e.isLockStep = true)
    (hb : StepOrder body) : StepOrder (tr ++ body) := by
  unfold StepOrder at *
  rw [List.map_append, List.pairwise_append]
  have h0 : ∀ x ∈ tr.map Event.phase, x = 0 := by
    intro x hx
    obtain ⟨e, he, rfl⟩ := List.mem_map.mp hx
    have := h e he
    cases e <;> simp_all [Event.isLockStep, Event.phase]
  refine ⟨?_, hb, ?_⟩
  · exact List.pairwise_of_forall_mem_list (fun a ha b _ => by rw [h0 a ha]; exact Nat.zero_le b)
  · intro a ha b _
    rw [h0 a ha]
    exact Nat.zero_le b

/-- In `ompi_osc_fsm_accumulate` and `ompi_osc_fsm_raccumulate` the steps that follow the
lock come in the order invalidate, mutation, commit, unlock. -/
theorem accumulate_locked_stepOrder (E : Env) (module : ompi_osc_fsm_module_t) (origin : Buf)
    (target : Nat) (target_disp : Int) (target_count : Nat) (target_dt : ompi_datatype_t)
    (op : ompi_op_t) (w1 : World) (h : ∀ e ∈ w1.trace, e.isLockStep = true) :
    StepOrder (accumulate_locked E module origin target target_disp target_count target_dt op
      w1).2.trace := by
  unfold accumulate_locked
  by_cases hr : op = ompi_op_t.ompi_mpi_op_replace
  · subst hr
    simp only [if_true, sndrcv_store, osc_fsm_commit, fsm_atomic_unlock, ne_eq, reduceCtorEq,
      not_false_eq_true, List.append_assoc]
    exact stepOrder_after_lock _ _ h (by simp [StepOrder, Event.phase])
  · by_cases hn : op = ompi_op_t.ompi_mpi_op_no_op
    · subst hn
      simp only [if_false, sndrcv_op_store, osc_fsm_invalidate, fsm_atomic_unlock, ne_eq,
        not_true_eq_false, reduceCtorEq, List.append_assoc]
      exact stepOrder_after_lock _ _ h (by simp [StepOrder, Event.phase])
    · simp only [hr, hn, if_false, sndrcv_op_store, osc_fsm_invalidate, osc_fsm_commit,
        fsm_atomic_unlock, ne_eq, not_false_eq_true, if_true, List.append_assoc]
      exact stepOrder_after_lock _ _ h (by simp [StepOrder, Event.phase])

/-- In `ompi_osc_fsm_get_accumulate` the steps that follow the lock come in the order
invalidate, fetch, mutation, commit, unlock. -/
theorem get_accumulate_locked_stepOrder (E : Env) (module : ompi_osc_fsm_module_t)
    (origin result : Buf) (target : Nat) (target_disp : Int) (target_count : Nat)
    (target_dt : ompi_datatype_t) (op : ompi_op_t) (w1 : World)
    (h : ∀ e ∈ w1.trace, e.isLockStep = true) :
    StepOrder (get_accumulate_locked E module origin result target target_disp target_count
      target_dt op w1).2.trace := by
  unfold get_accumulate_locked
  simp only [sndrcv_fetch, osc_fsm_invalidate]
  split
  · simp only [fsm_atomic_unlock, List.append_assoc]
    exact stepOrder_after_lock _ _ h (by simp [StepOrder, Event.phase])
  · by_cases hr : op = ompi_op_t.ompi_mpi_op_replace
    · simp only [hr, if_true, sndrcv_store, osc_fsm_commit, fsm_atomic_unlock,
        List.append_assoc]
      exact stepOrder_after_lock _ _ h (by simp [StepOrder, Event.phase])
    · simp only [hr, if_false, sndrcv_op_store, osc_fsm_commit, fsm_atomic_unlock,
        List.append_assoc]
      exact stepOrder_after_lock _ _ h (by simp [StepOrder, Event.phase])

/-- In `ompi_osc_fsm_compare_and_swap` the steps that follow the lock come in the order
invalidate, fetch, mutation, commit, unlock. -/
theorem compare_and_swap_locked_stepOrder (module : ompi_osc_fsm_module_t)
    (origin_addr compare_addr result_addr : Int) (dt : ompi_datatype_t)
    (target : Nat) (target_disp : Int) (w1 : World)
    (h : ∀ e ∈ w1.trace, e.isLockStep = true) :
    StepOrder (compare_and_swap_locked module origin_addr compare_addr result_addr dt target
      target_disp w1).2.trace := by
  unfold compare_and_swap_locked
  simp only [osc_fsm_invalidate]
  split
  · simp only [osc_fsm_commit, fsm_atomic_unlock, List.append_assoc]
    exact stepOrder_after_lock _ _ h (by simp [StepOrder, Event.phase])
  · simp only [fsm_atomic_unlock, List.append_assoc]
    exact stepOrder_after_lock _ _ h (by simp [StepOrder, Event.phase])

/-- In `ompi_osc_fsm_fetch_and_op` the steps that follow the lock come in the order
invalidate, fetch, mutation, commit, unlock. -/
theorem fetch_and_op_locked_stepOrder (E : Env) (module : ompi_osc_fsm_module_t)
    (origin_addr result_addr : Int) (dt : ompi_datatype_t)
    (target : Nat) (target_disp : Int) (op : ompi_op_t) (w1 : World)
    (h : ∀ e ∈ w1.trace, e.isLockStep = true) :
    StepOrder (fetch_and_op_locked E module origin_addr result_addr dt target target_disp op
      w1).2.trace := by
  unfold fetch_and_op_locked
  simp only [osc_fsm_invalidate]
  split
  · simp only [fsm_atomic_unlock, List.append_assoc]
    exact stepOrder_after_lock _ _ h (by simp [StepOrder, Event.phase])
  · simp only [osc_fsm_commit, fsm_atomic_unlock, List.append_assoc]
    exact stepOrder_after_lock _ _ h (by simp [StepOrder, Event.phase])

/-- In `ompi_osc_fsm_rget_accumulate`, for every operator other than Replace and NoOp
and every successful fetch, the invalidate comes after the fetch. -/
theorem rget_accumulate_locked_not_stepOrder (E : Env) (module : ompi_osc_fsm_module_t)
    (origin result : Buf) (target : Nat) (target_disp : Int) (target_count : Nat)
    (target_dt : ompi_datatype_t) (op : ompi_op_t) (w1 : World)
    (hf : (E.ompi_datatype_sndrcv w1.mem
      ⟨remote_address module target target_disp, target_count, target_dt⟩ result).1
        = OMPI_SUCCESS)
    (hr : op ≠ ompi_op_t.ompi_mpi_op_replace) (hn : op ≠ ompi_op_t.ompi_mpi_op_no_op) :
    ¬ StepOrder (rget_accumulate_locked E module origin result target target_disp target_count
      target_dt op w1).2.2.trace := by
  unfold rget_accumulate_locked
  simp only [sndrcv_fetch, hf, hn, ne_eq, not_true_eq_false, or_self, if_false, hr,
    sndrcv_op_store, osc_fsm_invalidate, osc_fsm_commit, fsm_atomic_unlock, List.append_assoc]
  intro h
  unfold StepOrder at h
  rw [List.map_append, List.pairwise_append] at h
  have h2 := h.2.1
  simp [Event.phase] at h2

/-! ## Coherence ranges of the bodies -/

/-- With a reducing operator, the steps of `ompi_osc_fsm_accumulate` and
`ompi_osc_fsm_raccumulate` after the lock are: an invalidate whose length is measured
on the origin descriptor, the reduction, a commit whose length is measured on the
target descriptor, the unlock. -/
theorem accumulate_locked_trace_reducing (E : Env) (module : ompi_osc_fsm_module_t)
    (origin : Buf) (target : Nat) (target_disp : Int) (target_count : Nat)
    (target_dt : ompi_datatype_t) (op : ompi_op_t) (w1 : World)
    (hr : op ≠ ompi_op_t.ompi_mpi_op_replace) (hn : op ≠ ompi_op_t.ompi_mpi_op_no_op) :
    (accumulate_locked E module origin target target_disp target_count target_dt op w1).2.trace
      = w1.trace ++
        [Event.invalidate target (remote_address module target target_disp)
           (origin.dt.size * origin.count),
         Event.mutate target (E.ompi_osc_base_sndrcv_op w1.mem origin
           ⟨remote_address module target target_disp, target_count, target_dt⟩ op).1,
         Event.commit target (remote_address module target target_disp)
           (target_dt.size * target_count),
         Event.unlock target] := by
  simp [accumulate_locked, hr, hn, sndrcv_op_store, osc_fsm_invalidate, osc_fsm_commit,
    fsm_atomic_unlock]

/-- With a reducing operator and a fetch that succeeds, the steps of
`ompi_osc_fsm_get_accumulate` after the lock are: an invalidate whose length is
measured on the origin descriptor, the fetch of the target descriptor, the
reduction, a commit whose length is measured on the target descriptor, the unlock. -/
theorem get_accumulate_locked_trace_reducing (E : Env) (module : ompi_osc_fsm_module_t)
    (origin result : Buf) (target : Nat) (target_disp : Int) (target_count : Nat)
    (target_dt : ompi_datatype_t) (op : ompi_op_t) (w1 : World)
    (hf : (E.ompi_datatype_sndrcv w1.mem
      ⟨remote_address module target target_disp, target_count, target_dt⟩ result).1
        = OMPI_SUCCESS)
    (hr : op ≠ ompi_op_t.ompi_mpi_op_replace) (hn : op ≠ ompi_op_t.ompi_mpi_op_no_op) :
    (get_accumulate_locked E module origin result target target_disp target_count target_dt
        op w1).2.trace
      = w1.trace ++
        [Event.invalidate target (remote_address module target target_disp)
           (origin.dt.size * origin.count),
         Event.fetch target OMPI_SUCCESS,
         Event.mutate target (E.ompi_osc_base_sndrcv_op
           (E.ompi_datatype_sndrcv w1.mem
             ⟨remote_address module target target_disp, target_count, target_dt⟩ result).2
           origin ⟨remote_address module target target_disp, target_count, target_dt⟩ op).1,
         Event.commit target (remote_address module target target_disp)
           (target_dt.size * target_count),
         Event.unlock target] := by
  simp [get_accumulate_locked, hf, hr, hn, sndrcv_fetch, sndrcv_op_store, osc_fsm_invalidate,
    osc_fsm_commit, fsm_atomic_unlock]

/-- With a reducing operator and a fetch that succeeds, the steps of
`ompi_osc_fsm_rget_accumulate` after the lock are: the fetch of the target
descriptor, an invalidate whose length is measured on the origin descriptor, the
reduction, a commit whose length is measured on the target descriptor, the unlock. -/
theorem rget_accumulate_locked_trace_reducing (E : Env) (module : ompi_osc_fsm_module_t)
    (origin result : Buf) (target : Nat) (target_disp : Int) (target_count : Nat)
    (target_dt : ompi_datatype_t) (op : ompi_op_t) (w1 : World)
    (hf : (E.ompi_datatype_sndrcv w1.mem
      ⟨remote_address module target target_disp, target_count, target_dt⟩ result).1
        = OMPI_SUCCESS)
    (hr : op ≠ ompi_op_t.ompi_mpi_op_replace) (hn : op ≠ ompi_op_t.ompi_mpi_op_no_op) :
    (rget_accumulate_locked E module origin result target target_disp target_count target_dt
        op w1).2.2.trace
      = w1.trace ++
        [Event.fetch target OMPI_SUCCESS,
         Event.invalidate target (remote_address module target target_disp)
           (origin.dt.size * origin.count),
         Event.mutate target (E.ompi_osc_base_sndrcv_op
           (E.ompi_datatype_sndrcv w1.mem
             ⟨remote_address module target target_disp, target_count, target_dt⟩ result).2
           origin ⟨remote_address module target target_disp, target_count, target_dt⟩ op).1,
         Event.commit target (remote_address module target target_disp)
           (target_dt.size * target_count),
         Event.unlock target] := by
  simp [rget_accumulate_locked, hf, hr, hn, sndrcv_fetch, sndrcv_op_store, osc_fsm_invalidate,
    osc_fsm_commit, fsm_atomic_unlock]

theorem coherenceSteps_lockSteps (steps : List Event)
    (h : ∀ e ∈ steps, e.isLockStep = true) : coherenceSteps steps = [] := by
  unfold coherenceSteps
  rw [List.filter_eq_nil_iff]
  intro e he
  have := h e he
  cases e <;> simp_all [Event.isLockStep, Event.isInvalidate, Event.isCommit]

/-- The coherence steps of the four accumulate verbs with a reducing operator (and,
for the two that fetch, a fetch that succeeds), run from a state whose trace holds
none: one invalidate of `origin.dt.size * origin.count` bytes and one commit of
`target_dt.size * target_count` bytes, both from the resolved target address. -/
theorem accumulate_verbs_coherenceSteps (E : Env) (module : ompi_osc_fsm_module_t)
    (origin result : Buf) (target : Nat) (target_disp : Int) (target_count : Nat)
    (target_dt : ompi_datatype_t) (op : ompi_op_t) (w1 : World)
    (hc : coherenceSteps w1.trace = [])
    (hf : (E.ompi_datatype_sndrcv w1.mem
      ⟨remote_address module target target_disp, target_count, target_dt⟩ result).1
        = OMPI_SUCCESS)
    (hr : op ≠ ompi_op_t.ompi_mpi_op_replace) (hn : op ≠ ompi_op_t.ompi_mpi_op_no_op) :
    coherenceSteps (accumulate_locked E module origin target target_disp target_count
        target_dt op w1).2.trace
      = [Event.invalidate target (remote_address module target target_disp)
           (origin.dt.size * origin.count),
         Event.commit target (remote_address module target target_disp)
           (target_dt.size * target_count)] ∧
    coherenceSteps (get_accumulate_locked E module origin result target target_disp
        target_count target_dt op w1).2.trace
      = [Event.invalidate target (remote_address module target target_disp)
           (origin.dt.size * origin.count),
         Event.commit target (remote_address module target target_disp)
           (target_dt.size * target_count)] ∧
    coherenceSteps (rget_accumulate_locked E module origin result target target_disp
        target_count target_dt op w1).2.2.trace
      = [Event.invalidate target (remote_address module target target_disp)
           (origin.dt.size * origin.count),
         Event.commit target (remote_address module target target_disp)
           (target_dt.size * target_count)] := by
  rw [accumulate_locked_trace_reducing E module origin target target_disp target_count
      target_dt op w1 hr hn,
    get_accumulate_locked_trace_reducing E module origin result target target_disp
      target_count target_dt op w1 hf hr hn,
    rget_accumulate_locked_trace_reducing E module origin result target target_disp
      target_count target_dt op w1 hf hr hn]
  unfold coherenceSteps at hc ⊢
  rw [List.filter_append, List.filter_append, List.filter_append, hc]
  simp only [List.nil_append]
  refine ⟨?_, ?_, ?_⟩ <;> simp [List.filter_cons, Event.isInvalidate, Event.isCommit]

/-! ## The interleaving semantics against the sequential body -/

/-- The two halves of the body and the unlock, stepped one after the other by one
origin of the interleaving semantics, leave the state that the rest of
`ompi_osc_fsm_fetch_and_op` leaves. -/
theorem rmw_body_steps_eq_locked (E : Env) (modules : Nat → ompi_osc_fsm_module_t)
    (target : Nat) (calls : Nat → FetchAndOpCall) (s : RmwSys) (i : Nat)
    (h : s.pc i = RmwPc.locked) :
    (RmwSys.run E modules target calls s
        (if (calls i).op = ompi_op_t.ompi_mpi_op_no_op then [i, i] else [i, i, i])).world
      = (fetch_and_op_locked E (modules i) (calls i).origin_addr (calls i).result_addr
          (calls i).dt target (calls i).target_disp (calls i).op s.world).2 := by
  by_cases hn : (calls i).op = ompi_op_t.ompi_mpi_op_no_op
  · simp [RmwSys.run, RmwSys.step, h, hn, fetch_and_op_locked]
  · simp [RmwSys.run, RmwSys.step, h, hn, fetch_and_op_locked]

/-! ## The claims -/

/-- C1 (compare_and_swap swaps on equality and returns success) fails on the code.
The target element holds 5, the compare buffer 5, the origin buffer 9, the lock
word reads Unlocked and no other origin touches it: the call never returns,
whatever the fuel, because `fsm_atomic_lock` spins on the Locked it wrote itself. -/
theorem compare_and_swap_uncontended_never_returns :
    readBytes demoWorld.mem (remote_address (demoModule 0) 1 2) int32_dt.size
      = readBytes demoWorld.mem 104 int32_dt.size ∧
    demoWorld.accumulate_lock 1 = OPAL_ATOMIC_LOCK_UNLOCKED ∧
    ∀ fuel, ompi_osc_fsm_compare_and_swap noInterference fuel (demoModule 0) 100 104 108
      int32_dt 1 2 demoWorld = none := by
  refine ⟨by decide, rfl, fun fuel => ?_⟩
  simp [ompi_osc_fsm_compare_and_swap,
    fsm_atomic_lock_uncontended_spins (demoModule 0) 1 fuel demoWorld rfl]

/-- C2 (mutual exclusion of the AccumulateLock) fails on the code. Starting from
Unlocked, origin 0 exchanges Locked into the word and, having observed Unlocked, is
sent into the spin loop; origins 1 (the target rank itself) and 2 then each observe
Locked, for which `fsm_atomic_trylock` returns zero, so `fsm_atomic_lock` returns
for both: two origins are between the return of their lock call and their unlock. -/
theorem mutual_exclusion_violated_three_origins :
    (LockSys.run demoModule 1 LockSys.init [0, 0, 1, 1, 2, 2]).pc 0 = OriginPc.inner ∧
    (LockSys.run demoModule 1 LockSys.init [0, 0, 1, 1, 2, 2]).pc 1 = OriginPc.holding ∧
    (LockSys.run demoModule 1 LockSys.init [0, 0, 1, 1, 2, 2]).pc 2 = OriginPc.holding ∧
    ¬ LockSys.MutualExclusion (LockSys.run demoModule 1 LockSys.init [0, 0, 1, 1, 2, 2]) := by
  refine ⟨by decide, by decide, by decide, ?_⟩
  intro h
  exact absurd (h 1 2 (by decide) (by decide)) (by decide)

/-- C3 (lock returns only after a try_lock that observed Unlocked) fails on the code.
On a word that reads Locked, `fsm_atomic_lock` returns after one
`fsm_atomic_trylock` that observed Locked, for a local and for a remote target; and
the `fsm_atomic_trylock` that observes Unlocked returns non-zero, which is what
keeps the loop going: left alone, the call then never returns. -/
theorem lock_returns_after_trylock_observing_locked :
    fsm_atomic_lock_word (demoModule 0) 1 noInterference 1 OPAL_ATOMIC_LOCK_LOCKED
      = some ⟨OPAL_ATOMIC_LOCK_LOCKED, 1, [Event.trylock 1 OPAL_ATOMIC_LOCK_LOCKED 0]⟩ ∧
    fsm_atomic_lock_word (demoModule 1) 1 noInterference 1 OPAL_ATOMIC_LOCK_LOCKED
      = some ⟨OPAL_ATOMIC_LOCK_LOCKED, 1, [Event.trylock 1 OPAL_ATOMIC_LOCK_LOCKED 0]⟩ ∧
    fsm_atomic_trylock OSC_FSM_USE_SWAP_INSTEAD_OF_CSWAP (demoModule 0) 1
      OPAL_ATOMIC_LOCK_UNLOCKED = (1, OPAL_ATOMIC_LOCK_LOCKED) ∧
    ∀ fuel, fsm_atomic_lock_word (demoModule 0) 1 noInterference fuel
      OPAL_ATOMIC_LOCK_UNLOCKED = none := by
  refine ⟨by decide, by decide, by decide, ?_⟩
  intro fuel
  exact fsm_atomic_lock_word_uncontended_spins (demoModule 0) 1 fuel

/-- C4 (with NoOp the fetching verbs leave the target alone and return its current
value in result) fails on the code. The target element holds 5, the result buffer
holds 0, the lock word reads Unlocked and no other origin touches it:
`ompi_osc_fsm_fetch_and_op`, `ompi_osc_fsm_get_accumulate` and
`ompi_osc_fsm_rget_accumulate` with NoOp never return, whatever the fuel, so the fetch
is never reached and result never holds the value of the target. When another
origin lets the call through, `ompi_osc_fsm_rget_accumulate` fetches with no
invalidate before, and `ompi_osc_fsm_get_accumulate` with an empty origin buffer
invalidates zero bytes before its fetch. -/
theorem no_op_fetch_uncontended_never_returns :
    demoWorld.accumulate_lock 1 = OPAL_ATOMIC_LOCK_UNLOCKED ∧
    readBytes demoWorld.mem (remote_address (demoModule 0) 1 2) 4 = [5, 0, 0, 0] ∧
    readBytes demoWorld.mem 108 4 = [0, 0, 0, 0] ∧
    (∀ fuel, ompi_osc_fsm_fetch_and_op modelEnv noInterference fuel (demoModule 0) 100 108
      int32_dt 1 2 ompi_op_t.ompi_mpi_op_no_op demoWorld = none) ∧
    (∀ fuel, ompi_osc_fsm_get_accumulate modelEnv noInterference fuel (demoModule 0)
      ⟨100, 1, int32_dt⟩ ⟨108, 1, int32_dt⟩ 1 2 1 int32_dt ompi_op_t.ompi_mpi_op_no_op
      demoWorld = none) ∧
    (∀ fuel, ompi_osc_fsm_rget_accumulate modelEnv noInterference fuel (demoModule 0)
      ⟨100, 1, int32_dt⟩ ⟨108, 1, int32_dt⟩ 1 2 1 int32_dt ompi_op_t.ompi_mpi_op_no_op
      demoWorld = none) ∧
    (ompi_osc_fsm_rget_accumulate modelEnv lockedJustBefore 1 (demoModule 0)
        ⟨100, 1, int32_dt⟩ ⟨108, 1, int32_dt⟩ 1 2 1 int32_dt ompi_op_t.ompi_mpi_op_no_op
        demoWorld).map (fun r => r.2.2.trace)
      = some [Event.trylock 1 OPAL_ATOMIC_LOCK_LOCKED 0,
              Event.fetch 1 OMPI_SUCCESS,
              Event.unlock 1] ∧
    (ompi_osc_fsm_get_accumulate modelEnv lockedJustBefore 1 (demoModule 0)
        ⟨100, 0, int32_dt⟩ ⟨108, 1, int32_dt⟩ 1 2 1 int32_dt ompi_op_t.ompi_mpi_op_no_op
        demoWorld).map (fun r => r.2.trace)
      = some [Event.trylock 1 OPAL_ATOMIC_LOCK_LOCKED 0,
              Event.invalidate 1 1008 0,
              Event.fetch 1 OMPI_SUCCESS,
              Event.unlock 1] := by
  refine ⟨rfl, by decide, by decide, fun fuel => ?_, fun fuel => ?_, fun fuel => ?_,
    by decide, by decide⟩
  · simp [ompi_osc_fsm_fetch_and_op,
      fsm_atomic_lock_uncontended_spins (demoModule 0) 1 fuel demoWorld rfl]
  · simp [ompi_osc_fsm_get_accumulate,
      fsm_atomic_lock_uncontended_spins (demoModule 0) 1 fuel demoWorld rfl]
  · simp [ompi_osc_fsm_rget_accumulate,
      fsm_atomic_lock_uncontended_spins (demoModule 0) 1 fuel demoWorld rfl]

/-- C5 (linearizability of the accumulating verbs) fails on the code. Three origins
call `ompi_osc_fsm_fetch_and_op` with Sum and origin value 1 on a target element that
holds 5. Origin 0 observes Unlocked and is sent spinning; origins 1 and 2 each
observe Locked and are let through together; both fetch 5 before either adds. The
two completed calls both hold 5 in their result buffer and the target ends at 7,
which no execution of the calls one at a time produces: in every order the later
of the two calls fetches what the earlier one left. -/
theorem fetch_and_op_interleaving_not_linearizable :
    rmwFinal.pc 0 = RmwPc.inner ∧
    rmwFinal.pc 1 = RmwPc.returned ∧
    rmwFinal.pc 2 = RmwPc.returned ∧
    readBytes rmwFinal.world.mem (rmwCalls 1).result_addr 4 = [5, 0, 0, 0] ∧
    readBytes rmwFinal.world.mem (rmwCalls 2).result_addr 4 = [5, 0, 0, 0] ∧
    readBytes rmwFinal.world.mem 1008 4 = [7, 0, 0, 0] ∧
    ∀ order ∈ rmwOrders,
      ¬ ExplainedBy modelEnv demoModule 1 rmwCalls rmwMem [1, 2] 1008 4 rmwFinal.world.mem
        order := by
  refine ⟨by decide, by decide, by decide, by decide, by decide, by decide, by decide⟩

/-- C6 (Replace then get returns what was written) fails on the code: on a lock word
that reads Unlocked and that no other origin touches, the accumulate with Replace
never returns, whatever the fuel, so nothing is written for a get to read. -/
theorem accumulate_replace_uncontended_never_returns :
    demoWorld.accumulate_lock 1 = OPAL_ATOMIC_LOCK_UNLOCKED ∧
    ∀ fuel, ompi_osc_fsm_accumulate modelEnv noInterference fuel (demoModule 0)
      ⟨100, 1, int32_dt⟩ 1 2 1 int32_dt ompi_op_t.ompi_mpi_op_replace demoWorld = none := by
  refine ⟨rfl, fun fuel => ?_⟩
  simp [ompi_osc_fsm_accumulate,
    fsm_atomic_lock_uncontended_spins (demoModule 0) 1 fuel demoWorld rfl]

/-- C7 (two Sum accumulations leave t + v1 + v2) fails on the code: on a lock word
that reads Unlocked and that no other origin touches, the first accumulate with Sum
never returns, whatever the fuel, and the target keeps its value. -/
theorem accumulate_sum_uncontended_never_returns :
    demoWorld.accumulate_lock 1 = OPAL_ATOMIC_LOCK_UNLOCKED ∧
    (∀ fuel, ompi_osc_fsm_accumulate modelEnv noInterference fuel (demoModule 0)
      ⟨100, 1, int32_dt⟩ 1 2 1 int32_dt ompi_op_t.ompi_mpi_op_sum demoWorld = none) ∧
    (∀ fuel, ompi_osc_fsm_accumulate modelEnv noInterference fuel (demoModule 0)
      ⟨104, 1, int32_dt⟩ 1 2 1 int32_dt ompi_op_t.ompi_mpi_op_sum demoWorld = none) := by
  refine ⟨rfl, fun fuel => ?_, fun fuel => ?_⟩ <;>
  simp [ompi_osc_fsm_accumulate,
    fsm_atomic_lock_uncontended_spins (demoModule 0) 1 fuel demoWorld rfl]

/-- C8: lock release on transfer failure, without rollback. For `ompi_osc_fsm_accumulate`,
`ompi_osc_fsm_raccumulate`, `ompi_osc_fsm_get_accumulate` and
`ompi_osc_fsm_rget_accumulate`, for every environment (hence every outcome of the
transfer and reduction primitives), whenever `fsm_atomic_lock` returns the verb
returns; it releases the lock exactly once, by its last step; the code it returns
is that of the last primitive it ran (the fetch when the fetch fails, the
mutation primitive otherwise), so a failure code is returned as it is; and the
memory it leaves is the memory that primitive left: what was written before and by
the failing primitive stays. -/
theorem lock_released_once_on_failure :
    (∀ (E : Env) (intf : Interference) (fuel : Nat) (module : ompi_osc_fsm_module_t)
        (origin : Buf) (target : Nat) (target_disp : Int) (target_count : Nat)
        (target_dt : ompi_datatype_t) (op : ompi_op_t) (w : World),
      (fsm_atomic_lock module target intf fuel w).isSome = true →
      ∃ w', ompi_osc_fsm_accumulate E intf fuel module origin target target_disp target_count
          target_dt op w
          = some ((mutation_primitive E origin
              ⟨remote_address module target target_disp, target_count, target_dt⟩ op
              w.mem).1, w') ∧
        w'.mem = (mutation_primitive E origin
              ⟨remote_address module target target_disp, target_count, target_dt⟩ op
              w.mem).2 ∧
        ReleasedOnce target w w') ∧
    (∀ (E : Env) (intf : Interference) (fuel : Nat) (module : ompi_osc_fsm_module_t)
        (origin : Buf) (target : Nat) (target_disp : Int) (target_count : Nat)
        (target_dt : ompi_datatype_t) (op : ompi_op_t) (w : World),
      (fsm_atomic_lock module target intf fuel w).isSome = true →
      ∃ w', ompi_osc_fsm_raccumulate E intf fuel module origin target target_disp target_count
          target_dt op w
          = some ((mutation_primitive E origin
              ⟨remote_address module target target_disp, target_count, target_dt⟩ op
              w.mem).1, some ompi_request_empty, w') ∧
        w'.mem = (mutation_primitive E origin
              ⟨remote_address module target target_disp, target_count, target_dt⟩ op
              w.mem).2 ∧
        ReleasedOnce target w w') ∧
    (∀ (E : Env) (intf : Interference) (fuel : Nat) (module : ompi_osc_fsm_module_t)
        (origin result : Buf) (target : Nat) (target_disp : Int) (target_count : Nat)
        (target_dt : ompi_datatype_t) (op : ompi_op_t) (w : World),
      (fsm_atomic_lock module target intf fuel w).isSome = true →
      ∃ ret w', ompi_osc_fsm_get_accumulate E intf fuel module origin result target
          target_disp target_count target_dt op w = some (ret, w') ∧
        ReleasedOnce target w w' ∧
        ((E.ompi_datatype_sndrcv w.mem
            ⟨remote_address module target target_disp, target_count, target_dt⟩ result).1
            ≠ OMPI_SUCCESS →
          ret = (E.ompi_datatype_sndrcv w.mem
            ⟨remote_address module target target_disp, target_count, target_dt⟩ result).1 ∧
          w'.mem = (E.ompi_datatype_sndrcv w.mem
            ⟨remote_address module target target_disp, target_count, target_dt⟩ result).2) ∧
        ((E.ompi_datatype_sndrcv w.mem
            ⟨remote_address module target target_disp, target_count, target_dt⟩ result).1
            = OMPI_SUCCESS → op ≠ ompi_op_t.ompi_mpi_op_no_op →
          ret = (mutation_primitive E origin
            ⟨remote_address module target target_disp, target_count, target_dt⟩ op
            (E.ompi_datatype_sndrcv w.mem
              ⟨remote_address module target target_disp, target_count, target_dt⟩
              result).2).1 ∧
          w'.mem = (mutation_primitive E origin
            ⟨remote_address module target target_disp, target_count, target_dt⟩ op
            (E.ompi_datatype_sndrcv w.mem
              ⟨remote_address module target target_disp, target_count, target_dt⟩
              result).2).2)) ∧
    (∀ (E : Env) (intf : Interference) (fuel : Nat) (module : ompi_osc_fsm_module_t)
        (origin result : Buf) (target : Nat) (target_disp : Int) (target_count : Nat)
        (target_dt : ompi_datatype_t) (op : ompi_op_t) (w : World),
      (fsm_atomic_lock module target intf fuel w).isSome = true →
      ∃ ret w', ompi_osc_fsm_rget_accumulate E intf fuel module origin result target
          target_disp target_count target_dt op w = some (ret, some ompi_request_empty, w') ∧
        ReleasedOnce target w w' ∧
        ((E.ompi_datatype_sndrcv w.mem
            ⟨remote_address module target target_disp, target_count, target_dt⟩ result).1
            ≠ OMPI_SUCCESS →
          ret = (E.ompi_datatype_sndrcv w.mem
            ⟨remote_address module target target_disp, target_count, target_dt⟩ result).1 ∧
          w'.mem = (E.ompi_datatype_sndrcv w.mem
            ⟨remote_address module target target_disp, target_count, target_dt⟩ result).2) ∧
        ((E.ompi_datatype_sndrcv w.mem
            ⟨remote_address module target target_disp, target_count, target_dt⟩ result).1
            = OMPI_SUCCESS → op ≠ ompi_op_t.ompi_mpi_op_no_op →
          ret = (mutation_primitive E origin
            ⟨remote_address module target target_disp, target_count, target_dt⟩ op
            (E.ompi_datatype_sndrcv w.mem
              ⟨remote_address module target target_disp, target_count, target_dt⟩
              result).2).1 ∧
          w'.mem = (mutation_primitive E origin
            ⟨remote_address module target target_disp, target_count, target_dt⟩ op
            (E.ompi_datatype_sndrcv w.mem
              ⟨remote_address module target target_disp, target_count, target_dt⟩
              result).2).2)) := by
  refine ⟨?_, ?_, ?_, ?_⟩
  · intro E intf fuel module origin target target_disp target_count target_dt op w hlock
    obtain ⟨w1, hw1⟩ := Option.isSome_iff_exists.mp hlock
    obtain ⟨_, hm, _, _, _⟩ := fsm_atomic_lock_returns module target intf fuel w w1 hw1
    obtain ⟨h1, h2, h3⟩ := accumulate_locked_post E module origin target target_disp
      target_count target_dt op w1
    rw [hm] at h1 h2
    refine ⟨_, ?_, h2, releasedOnce_of_locked module target intf fuel w w1 _ hw1 h3⟩
    simp only [ompi_osc_fsm_accumulate, hw1, Option.map_some', ← h1]
  · intro E intf fuel module origin target target_disp target_count target_dt op w hlock
    obtain ⟨w1, hw1⟩ := Option.isSome_iff_exists.mp hlock
    obtain ⟨_, hm, _, _, _⟩ := fsm_atomic_lock_returns module target intf fuel w w1 hw1
    obtain ⟨h1, h2, h3⟩ := accumulate_locked_post E module origin target target_disp
      target_count target_dt op w1
    rw [hm] at h1 h2
    refine ⟨_, ?_, h2, releasedOnce_of_locked module target intf fuel w w1 _ hw1 h3⟩
    simp only [ompi_osc_fsm_raccumulate, hw1, Option.map_some', ← h1]
  · intro E intf fuel module origin result target target_disp target_count target_dt op w hlock
    obtain ⟨w1, hw1⟩ := Option.isSome_iff_exists.mp hlock
    obtain ⟨_, hm, _, _, _⟩ := fsm_atomic_lock_returns module target intf fuel w w1 hw1
    obtain ⟨h1, h2, h3⟩ := get_accumulate_locked_post E module origin result target target_disp
      target_count target_dt op w1
    rw [hm] at h2 h3
    refine ⟨_, _, ?_, releasedOnce_of_locked module target intf fuel w w1 _ hw1 h1, h2, h3⟩
    simp only [ompi_osc_fsm_get_accumulate, hw1, Option.map_some']
  · intro E intf fuel module origin result target target_disp target_count target_dt op w hlock
    obtain ⟨w1, hw1⟩ := Option.isSome_iff_exists.mp hlock
    obtain ⟨_, hm, _, _, _⟩ := fsm_atomic_lock_returns module target intf fuel w w1 hw1
    obtain ⟨h0, h1, h2, _, h3⟩ := rget_accumulate_locked_post E module origin result target
      target_disp target_count target_dt op w1
    rw [hm] at h2 h3
    refine ⟨_, _, ?_, releasedOnce_of_locked module target intf fuel w w1 _ hw1 h1, h2, h3⟩
    simp only [ompi_osc_fsm_rget_accumulate, hw1, Option.map_some', ← h0]

/-- Witness for C8: on `demoWorld`, the word having been made Locked by another
origin just before the call, an accumulate and a raccumulate whose reduction fails
on a count mismatch, and a get_accumulate and an rget_accumulate whose fetch
fails on a count mismatch, return the failure code and release the lock once. -/
theorem lock_released_once_on_failure_witness :
    (∃ w', ompi_osc_fsm_accumulate modelEnv lockedJustBefore 1 (demoModule 0)
        ⟨100, 2, int32_dt⟩ 1 2 1 int32_dt ompi_op_t.ompi_mpi_op_sum demoWorld
        = some (OMPI_ERROR, w') ∧ ReleasedOnce 1 demoWorld w') ∧
    (∃ w', ompi_osc_fsm_raccumulate modelEnv lockedJustBefore 1 (demoModule 0)
        ⟨100, 2, int32_dt⟩ 1 2 1 int32_dt ompi_op_t.ompi_mpi_op_sum demoWorld
        = some (OMPI_ERROR, some ompi_request_empty, w') ∧ ReleasedOnce 1 demoWorld w') ∧
    (∃ w', ompi_osc_fsm_get_accumulate modelEnv lockedJustBefore 1 (demoModule 0)
        ⟨100, 1, int32_dt⟩ ⟨108, 2, int32_dt⟩ 1 2 1 int32_dt ompi_op_t.ompi_mpi_op_sum
        demoWorld = some (OMPI_ERROR, w') ∧ ReleasedOnce 1 demoWorld w') ∧
    (∃ w', ompi_osc_fsm_rget_accumulate modelEnv lockedJustBefore 1 (demoModule 0)
        ⟨100, 1, int32_dt⟩ ⟨108, 2, int32_dt⟩ 1 2 1 int32_dt ompi_op_t.ompi_mpi_op_sum
        demoWorld = some (OMPI_ERROR, some ompi_request_empty, w') ∧
        ReleasedOnce 1 demoWorld w') := by
  refine ⟨?_, ?_, ?_, ?_⟩
  · obtain ⟨w', h1, _, h3⟩ := lock_released_once_on_failure.1 modelEnv lockedJustBefore 1
      (demoModule 0) ⟨100, 2, int32_dt⟩ 1 2 1 int32_dt ompi_op_t.ompi_mpi_op_sum demoWorld
      (by decide)
    exact ⟨w', h1, h3⟩
  · obtain ⟨w', h1, _, h3⟩ := lock_released_once_on_failure.2.1 modelEnv lockedJustBefore 1
      (demoModule 0) ⟨100, 2, int32_dt⟩ 1 2 1 int32_dt ompi_op_t.ompi_mpi_op_sum demoWorld
      (by decide)
    exact ⟨w', h1, h3⟩
  · obtain ⟨ret, w', h1, h2, h3, _⟩ := lock_released_once_on_failure.2.2.1 modelEnv
      lockedJustBefore 1 (demoModule 0) ⟨100, 1, int32_dt⟩ ⟨108, 2, int32_dt⟩ 1 2 1 int32_dt
      ompi_op_t.ompi_mpi_op_sum demoWorld (by decide)
    have hr : ret = OMPI_ERROR := (h3 (by decide)).1.trans (by decide)
    subst hr
    exact ⟨w', h1, h2⟩
  · obtain ⟨ret, w', h1, h2, h3, _⟩ := lock_released_once_on_failure.2.2.2 modelEnv
      lockedJustBefore 1 (demoModule 0) ⟨100, 1, int32_dt⟩ ⟨108, 2, int32_dt⟩ 1 2 1 int32_dt
      ompi_op_t.ompi_mpi_op_sum demoWorld (by decide)
    have hr : ret = OMPI_ERROR := (h3 (by decide)).1.trans (by decide)
    subst hr
    exact ⟨w', h1, h2⟩

/-- C9 as stated fails on the code: a failed transfer does not hand back a request
marked failed. With a count mismatch the transfer of `ompi_osc_fsm_rput` and of
`ompi_osc_fsm_rget` fails and the verb returns the error without writing the
request handle; the reduction of `ompi_osc_fsm_raccumulate` and the fetch of
`ompi_osc_fsm_rget_accumulate` fail and the verb returns the error together with
`ompi_request_empty`, whose error indicator is success. -/
theorem failed_transfer_request_not_marked_failed :
    (ompi_osc_fsm_rput modelEnv (demoModule 0) ⟨100, 2, int32_dt⟩ 1 2 1 int32_dt demoWorld).1
      = OMPI_ERROR ∧
    (ompi_osc_fsm_rput modelEnv (demoModule 0) ⟨100, 2, int32_dt⟩ 1 2 1 int32_dt
      demoWorld).2.1 = none ∧
    (ompi_osc_fsm_rget modelEnv (demoModule 0) ⟨100, 2, int32_dt⟩ 1 2 1 int32_dt demoWorld).1
      = OMPI_ERROR ∧
    (ompi_osc_fsm_rget modelEnv (demoModule 0) ⟨100, 2, int32_dt⟩ 1 2 1 int32_dt
      demoWorld).2.1 = none ∧
    (ompi_osc_fsm_raccumulate modelEnv lockedJustBefore 1 (demoModule 0) ⟨100, 2, int32_dt⟩
      1 2 1 int32_dt ompi_op_t.ompi_mpi_op_sum demoWorld).map (fun r => (r.1, r.2.1))
      = some (OMPI_ERROR, some ompi_request_empty) ∧
    (ompi_osc_fsm_rget_accumulate modelEnv lockedJustBefore 1 (demoModule 0)
      ⟨100, 1, int32_dt⟩ ⟨108, 2, int32_dt⟩ 1 2 1 int32_dt ompi_op_t.ompi_mpi_op_sum
      demoWorld).map (fun r => (r.1, r.2.1))
      = some (OMPI_ERROR, some ompi_request_empty) ∧
    ompi_request_empty.MPI_ERROR = OMPI_SUCCESS ∧
    OMPI_ERROR ≠ OMPI_SUCCESS := by
  refine ⟨by decide, by decide, by decide, by decide, by decide, by decide, by decide,
    by decide⟩

/-- C9, amended: a transfer error is surfaced through the return code, never through
the request. `ompi_osc_fsm_rput` and `ompi_osc_fsm_rget` return an error iff their
transfer fails; on failure they return the code of the primitive and do not write
the request handle, on success they hand back `ompi_request_empty`.
`ompi_osc_fsm_raccumulate` and `ompi_osc_fsm_rget_accumulate`, whenever
`fsm_atomic_lock` returns, return the code of the last primitive they ran (the
mutation primitive; for `ompi_osc_fsm_rget_accumulate` the fetch when it failed or
when the operator is NoOp, the mutation primitive otherwise), hence an error iff a
primitive they ran failed, and in every case hand back `ompi_request_empty`, the
already-complete request whose error indicator is success. -/
theorem request_verbs_report_error_by_return_code :
    (∀ (E : Env) (module : ompi_osc_fsm_module_t) (origin : Buf) (target : Nat)
        (target_disp : Int) (target_count : Nat) (target_dt : ompi_datatype_t) (w : World),
      ((ompi_osc_fsm_rput E module origin target target_disp target_count target_dt w).1
          ≠ OMPI_SUCCESS ↔
        (E.ompi_datatype_sndrcv w.mem origin
          ⟨remote_address module target target_disp, target_count, target_dt⟩).1
          ≠ OMPI_SUCCESS) ∧
      ((E.ompi_datatype_sndrcv w.mem origin
          ⟨remote_address module target target_disp, target_count, target_dt⟩).1
          ≠ OMPI_SUCCESS →
        (ompi_osc_fsm_rput E module origin target target_disp target_count target_dt w).1
          = (E.ompi_datatype_sndrcv w.mem origin
            ⟨remote_address module target target_disp, target_count, target_dt⟩).1 ∧
        (ompi_osc_fsm_rput E module origin target target_disp target_count target_dt w).2.1
          = none) ∧
      ((E.ompi_datatype_sndrcv w.mem origin
          ⟨remote_address module target target_disp, target_count, target_dt⟩).1
          = OMPI_SUCCESS →
        (ompi_osc_fsm_rput E module origin target target_disp target_count target_dt w).2.1
          = some ompi_request_empty)) ∧
    (∀ (E : Env) (module : ompi_osc_fsm_module_t) (origin : Buf) (target : Nat)
        (target_disp : Int) (target_count : Nat) (target_dt : ompi_datatype_t) (w : World),
      ((ompi_osc_fsm_rget E module origin target target_disp target_count target_dt w).1
          ≠ OMPI_SUCCESS ↔
        (E.ompi_datatype_sndrcv w.mem
          ⟨remote_address module target target_disp, target_count, target_dt⟩ origin).1
          ≠ OMPI_SUCCESS) ∧
      ((E.ompi_datatype_sndrcv w.mem
          ⟨remote_address module target target_disp, target_count, target_dt⟩ origin).1
          ≠ OMPI_SUCCESS →
        (ompi_osc_fsm_rget E module origin target target_disp target_count target_dt w).1
          = (E.ompi_datatype_sndrcv w.mem
            ⟨remote_address module target target_disp, target_count, target_dt⟩ origin).1 ∧
        (ompi_osc_fsm_rget E module origin target target_disp target_count target_dt w).2.1
          = none) ∧
      ((E.ompi_datatype_sndrcv w.mem
          ⟨remote_address module target target_disp, target_count, target_dt⟩ origin).1
          = OMPI_SUCCESS →
        (ompi_osc_fsm_rget E module origin target target_disp target_count target_dt w).2.1
          = some ompi_request_empty)) ∧
    (∀ (E : Env) (intf : Interference) (fuel : Nat) (module : ompi_osc_fsm_module_t)
        (origin : Buf) (target : Nat) (target_disp : Int) (target_count : Nat)
        (target_dt : ompi_datatype_t) (op : ompi_op_t) (w : World),
      (fsm_atomic_lock module target intf fuel w).isSome = true →
      ∃ ret w', ompi_osc_fsm_raccumulate E intf fuel module origin target target_disp
          target_count target_dt op w = some (ret, some ompi_request_empty, w') ∧
        ret = (mutation_primitive E origin
            ⟨remote_address module target target_disp, target_count, target_dt⟩ op
            w.mem).1 ∧
        (ret ≠ OMPI_SUCCESS ↔
          (mutation_primitive E origin
            ⟨remote_address module target target_disp, target_count, target_dt⟩ op
            w.mem).1 ≠ OMPI_SUCCESS)) ∧
    (∀ (E : Env) (intf : Interference) (fuel : Nat) (module : ompi_osc_fsm_module_t)
        (origin result : Buf) (target : Nat) (target_disp : Int) (target_count : Nat)
        (target_dt : ompi_datatype_t) (op : ompi_op_t) (w : World),
      (fsm_atomic_lock module target intf fuel w).isSome = true →
      ∃ ret w', ompi_osc_fsm_rget_accumulate E intf fuel module origin result target
          target_disp target_count target_dt op w = some (ret, some ompi_request_empty, w') ∧
        ((E.ompi_datatype_sndrcv w.mem
            ⟨remote_address module target target_disp, target_count, target_dt⟩ result).1
            ≠ OMPI_SUCCESS →
          ret = (E.ompi_datatype_sndrcv w.mem
            ⟨remote_address module target target_disp, target_count, target_dt⟩ result).1) ∧
        ((E.ompi_datatype_sndrcv w.mem
            ⟨remote_address module target target_disp, target_count, target_dt⟩ result).1
            = OMPI_SUCCESS → op = ompi_op_t.ompi_mpi_op_no_op → ret = OMPI_SUCCESS) ∧
        ((E.ompi_datatype_sndrcv w.mem
            ⟨remote_address module target target_disp, target_count, target_dt⟩ result).1
            = OMPI_SUCCESS → op ≠ ompi_op_t.ompi_mpi_op_no_op →
          ret = (mutation_primitive E origin
              ⟨remote_address module target target_disp, target_count, target_dt⟩ op
              (E.ompi_datatype_sndrcv w.mem
                ⟨remote_address module target target_disp, target_count, target_dt⟩
                result).2).1) ∧
        (ret ≠ OMPI_SUCCESS ↔
          ((E.ompi_datatype_sndrcv w.mem
            ⟨remote_address module target target_disp, target_count, target_dt⟩ result).1
            ≠ OMPI_SUCCESS ∨
          (op ≠ ompi_op_t.ompi_mpi_op_no_op ∧
            (mutation_primitive E origin
              ⟨remote_address module target target_disp, target_count, target_dt⟩ op
              (E.ompi_datatype_sndrcv w.mem
                ⟨remote_address module target target_disp, target_count, target_dt⟩
                result).2).1 ≠ OMPI_SUCCESS)))) ∧
    ompi_request_empty.MPI_ERROR = OMPI_SUCCESS := by
  refine ⟨rput_post, rget_post, ?_, ?_, rfl⟩
  · intro E intf fuel module origin target target_disp target_count target_dt op w hlock
    obtain ⟨w1, hw1⟩ := Option.isSome_iff_exists.mp hlock
    obtain ⟨_, hm, _, _, _⟩ := fsm_atomic_lock_returns module target intf fuel w w1 hw1
    obtain ⟨h1, _, _⟩ := accumulate_locked_post E module origin target target_disp
      target_count target_dt op w1
    rw [hm] at h1
    refine ⟨(accumulate_locked E module origin target target_disp target_count target_dt op
      w1).1, (accumulate_locked E module origin target target_disp target_count target_dt op
      w1).2, ?_, ?_, ?_⟩
    · simp only [ompi_osc_fsm_raccumulate, hw1, Option.map_some']
    · exact h1
    · rw [h1]
  · intro E intf fuel module origin result target target_disp target_count target_dt op w hlock
    obtain ⟨w1, hw1⟩ := Option.isSome_iff_exists.mp hlock
    obtain ⟨_, hm, _, _, _⟩ := fsm_atomic_lock_returns module target intf fuel w w1 hw1
    obtain ⟨h0, _, h2, h3, h4⟩ := rget_accumulate_locked_post E module origin result target
      target_disp target_count target_dt op w1
    rw [hm] at h2 h3 h4
    refine ⟨(rget_accumulate_locked E module origin result target target_disp target_count
      target_dt op w1).1, (rget_accumulate_locked E module origin result target target_disp
      target_count target_dt op w1).2.2, ?_, fun hf => (h2 hf).1, h3,
      fun hf hn => (h4 hf hn).1, ?_⟩
    · simp only [ompi_osc_fsm_rget_accumulate, hw1, Option.map_some', ← h0]
    · by_cases hf : (E.ompi_datatype_sndrcv w.mem
          ⟨remote_address module target target_disp, target_count, target_dt⟩ result).1
          = OMPI_SUCCESS
      · by_cases hn : op = ompi_op_t.ompi_mpi_op_no_op
        · rw [h3 hf hn]
          exact ⟨fun a => absurd rfl a, fun a => a.elim (fun b => absurd hf b)
            (fun b => absurd hn b.1)⟩
        · rw [(h4 hf hn).1]
          exact ⟨fun a => Or.inr ⟨hn, a⟩, fun a => a.elim (fun b => absurd hf b) (fun b => b.2)⟩
      · rw [(h2 hf).1]
        exact ⟨fun a => Or.inl a, fun _ => hf⟩

/-- Witness for C9, amended: on `demoWorld`, the word having been made Locked by
another origin just before the call, a raccumulate whose reduction fails on a count
mismatch returns the code of the reduction and hands back `ompi_request_empty`,
an rget_accumulate with matching descriptors returns success, and with primitives
that fail with the code 7 both verbs return 7. -/
theorem request_verbs_report_error_by_return_code_witness :
    (∃ ret w', ompi_osc_fsm_raccumulate modelEnv lockedJustBefore 1 (demoModule 0)
        ⟨100, 2, int32_dt⟩ 1 2 1 int32_dt ompi_op_t.ompi_mpi_op_sum demoWorld
        = some (ret, some ompi_request_empty, w') ∧ ret = OMPI_ERROR) ∧
    (∃ ret w', ompi_osc_fsm_rget_accumulate modelEnv lockedJustBefore 1 (demoModule 0)
        ⟨100, 1, int32_dt⟩ ⟨108, 1, int32_dt⟩ 1 2 1 int32_dt ompi_op_t.ompi_mpi_op_sum
        demoWorld = some (ret, some ompi_request_empty, w') ∧ ret = OMPI_SUCCESS) ∧
    (∃ ret w', ompi_osc_fsm_raccumulate (failingEnv 7) lockedJustBefore 1 (demoModule 0)
        ⟨100, 1, int32_dt⟩ 1 2 1 int32_dt ompi_op_t.ompi_mpi_op_sum demoWorld
        = some (ret, some ompi_request_empty, w') ∧ ret = 7) ∧
    (∃ ret w', ompi_osc_fsm_rget_accumulate (failingEnv 7) lockedJustBefore 1 (demoModule 0)
        ⟨100, 1, int32_dt⟩ ⟨108, 1, int32_dt⟩ 1 2 1 int32_dt ompi_op_t.ompi_mpi_op_sum
        demoWorld = some (ret, some ompi_request_empty, w') ∧ ret = 7) := by
  refine ⟨?_, ?_, ?_, ?_⟩
  · obtain ⟨ret, w', h1, h2, _⟩ := request_verbs_report_error_by_return_code.2.2.1 modelEnv
      lockedJustBefore 1 (demoModule 0) ⟨100, 2, int32_dt⟩ 1 2 1 int32_dt
      ompi_op_t.ompi_mpi_op_sum demoWorld (by decide)
    exact ⟨ret, w', h1, h2.trans (by decide)⟩
  · obtain ⟨ret, w', h1, _, _, h4, _⟩ :=
      request_verbs_report_error_by_return_code.2.2.2.1 modelEnv
      lockedJustBefore 1 (demoModule 0) ⟨100, 1, int32_dt⟩ ⟨108, 1, int32_dt⟩ 1 2 1 int32_dt
      ompi_op_t.ompi_mpi_op_sum demoWorld (by decide)
    exact ⟨ret, w', h1, (h4 (by decide) (by decide)).trans (by decide)⟩
  · obtain ⟨ret, w', h1, h2, _⟩ := request_verbs_report_error_by_return_code.2.2.1
      (failingEnv 7) lockedJustBefore 1 (demoModule 0) ⟨100, 1, int32_dt⟩ 1 2 1 int32_dt
      ompi_op_t.ompi_mpi_op_sum demoWorld (by decide)
    exact ⟨ret, w', h1, h2.trans (by decide)⟩
  · obtain ⟨ret, w', h1, h2, _, _, _⟩ :=
      request_verbs_report_error_by_return_code.2.2.2.1 (failingEnv 7)
      lockedJustBefore 1 (demoModule 0) ⟨100, 1, int32_dt⟩ ⟨108, 1, int32_dt⟩ 1 2 1 int32_dt
      ompi_op_t.ompi_mpi_op_sum demoWorld (by decide)
    exact ⟨ret, w', h1, (h2 (by decide)).trans (by decide)⟩

/-- C10 (fixed step order) fails on the code for `ompi_osc_fsm_rget_accumulate` with a
reducing operator: the fetch of line 295 is not preceded by any invalidate, and
the invalidate of line 305 is performed after it. -/
theorem rget_accumulate_invalidates_after_fetch :
    (ompi_osc_fsm_rget_accumulate modelEnv lockedJustBefore 1 (demoModule 0)
        ⟨100, 1, int32_dt⟩ ⟨108, 1, int32_dt⟩ 1 2 1 int32_dt ompi_op_t.ompi_mpi_op_sum
        demoWorld).map (fun r => (r.1, r.2.2.trace))
      = some (OMPI_SUCCESS,
          [Event.trylock 1 OPAL_ATOMIC_LOCK_LOCKED 0,
           Event.fetch 1 OMPI_SUCCESS,
           Event.invalidate 1 1008 4,
           Event.mutate 1 OMPI_SUCCESS,
           Event.commit 1 1008 4,
           Event.unlock 1]) ∧
    ¬ StepOrder [Event.trylock 1 OPAL_ATOMIC_LOCK_LOCKED 0,
           Event.fetch 1 OMPI_SUCCESS,
           Event.invalidate 1 1008 4,
           Event.mutate 1 OMPI_SUCCESS,
           Event.commit 1 1008 4,
           Event.unlock 1] := by
  refine ⟨by decide, by decide⟩

/-- C11 (invalidate and commit cover the same target range) fails on the code. Sum
with an origin of one 4-byte element and a target descriptor of two: in each of
`ompi_osc_fsm_accumulate`, `ompi_osc_fsm_raccumulate`, `ompi_osc_fsm_get_accumulate` and
`ompi_osc_fsm_rget_accumulate` every primitive succeeds, the commit covers the 8 bytes of
the target descriptor and the invalidate, measured on the origin descriptor, only
the first 4; `ompi_osc_fsm_get_accumulate` fetches all 8 bytes into result. -/
theorem invalidate_length_measured_on_origin :
    (ompi_osc_fsm_accumulate fittingEnv lockedJustBefore 1 (demoModule 0) ⟨100, 1, int32_dt⟩
        1 2 2 int32_dt ompi_op_t.ompi_mpi_op_sum demoWorld).map
        (fun r => (r.1, coherenceSteps r.2.trace))
      = some (OMPI_SUCCESS, [Event.invalidate 1 1008 4, Event.commit 1 1008 8]) ∧
    (ompi_osc_fsm_raccumulate fittingEnv lockedJustBefore 1 (demoModule 0) ⟨100, 1, int32_dt⟩
        1 2 2 int32_dt ompi_op_t.ompi_mpi_op_sum demoWorld).map
        (fun r => (r.1, coherenceSteps r.2.2.trace))
      = some (OMPI_SUCCESS, [Event.invalidate 1 1008 4, Event.commit 1 1008 8]) ∧
    (ompi_osc_fsm_get_accumulate fittingEnv lockedJustBefore 1 (demoModule 0)
        ⟨100, 1, int32_dt⟩ ⟨108, 2, int32_dt⟩ 1 2 2 int32_dt ompi_op_t.ompi_mpi_op_sum
        demoWorld).map (fun r => (r.1, r.2.trace, readBytes r.2.mem 108 8))
      = some (OMPI_SUCCESS,
          [Event.trylock 1 OPAL_ATOMIC_LOCK_LOCKED 0,
           Event.invalidate 1 1008 4,
           Event.fetch 1 OMPI_SUCCESS,
           Event.mutate 1 OMPI_SUCCESS,
           Event.commit 1 1008 8,
           Event.unlock 1],
          [5, 0, 0, 0, 0, 0, 0, 0]) ∧
    (ompi_osc_fsm_rget_accumulate fittingEnv lockedJustBefore 1 (demoModule 0)
        ⟨100, 1, int32_dt⟩ ⟨108, 2, int32_dt⟩ 1 2 2 int32_dt ompi_op_t.ompi_mpi_op_sum
        demoWorld).map (fun r => (r.1, coherenceSteps r.2.2.trace))
      = some (OMPI_SUCCESS, [Event.invalidate 1 1008 4, Event.commit 1 1008 8]) ∧
    remote_address (demoModule 0) 1 2 = 1008 ∧
    int32_dt.size * 2 = 8 := by
  refine ⟨by decide, by decide, by decide, by decide, by decide, by decide⟩

/-- C12 (swap-based and compare-and-swap-based acquisition are equivalent) fails on
the code. On a local target the two strategies return opposite values, for
Unlocked and for Locked, and within the compare-and-swap strategy the local and
the remote path return opposite values: the local compare-and-swap branch returns
1 when the exchange failed (line 50), the three other branches return 1 when the
prior value was Unlocked (lines 41 and 81). What does agree: the word left is
Locked in all eight cases, the two strategies return the same value on a remote
target, and within the swap strategy the local and the remote path return the
same value. -/
theorem trylock_strategies_differ_on_local_target :
    (fsm_atomic_trylock true (demoModule 1) 1 OPAL_ATOMIC_LOCK_UNLOCKED).1 = 1 ∧
    (fsm_atomic_trylock false (demoModule 1) 1 OPAL_ATOMIC_LOCK_UNLOCKED).1 = 0 ∧
    (fsm_atomic_trylock true (demoModule 1) 1 OPAL_ATOMIC_LOCK_LOCKED).1 = 0 ∧
    (fsm_atomic_trylock false (demoModule 1) 1 OPAL_ATOMIC_LOCK_LOCKED).1 = 1 ∧
    (fsm_atomic_trylock false (demoModule 0) 1 OPAL_ATOMIC_LOCK_UNLOCKED).1 = 1 ∧
    (fsm_atomic_trylock false (demoModule 0) 1 OPAL_ATOMIC_LOCK_LOCKED).1 = 0 ∧
    (fsm_atomic_trylock true (demoModule 0) 1 OPAL_ATOMIC_LOCK_UNLOCKED).1 = 1 ∧
    (fsm_atomic_trylock true (demoModule 0) 1 OPAL_ATOMIC_LOCK_LOCKED).1 = 0 ∧
    (∀ use_swap ∈ [true, false], ∀ rank ∈ [0, 1],
      ∀ w ∈ [OPAL_ATOMIC_LOCK_UNLOCKED, OPAL_ATOMIC_LOCK_LOCKED],
      (fsm_atomic_trylock use_swap (demoModule rank) 1 w).2 = OPAL_ATOMIC_LOCK_LOCKED) := by
  refine ⟨by decide, by decide, by decide, by decide, by decide, by decide, by decide,
    by decide, by decide⟩

/-- C13 (uncontended acquisition returns after one try) fails on the code. On a word
that reads Unlocked and that no other origin writes, for every caller, target and
fuel, `fsm_atomic_lock` never returns: its one `fsm_atomic_trylock` observes Unlocked,
leaves Locked and returns 1, which enters the loop body, and the inner loop then
spins on that Locked. Run with the compare-and-swap strategy on a local target,
the same loop returns after exactly one try and leaves Locked. -/
theorem uncontended_lock_never_returns :
    (∀ (module : ompi_osc_fsm_module_t) (target_rank fuel : Nat),
      fsm_atomic_lock_word module target_rank noInterference fuel OPAL_ATOMIC_LOCK_UNLOCKED
        = none) ∧
    (∀ (module : ompi_osc_fsm_module_t) (target_rank fuel : Nat),
      fsm_atomic_lock_loop OSC_FSM_USE_SWAP_INSTEAD_OF_CSWAP module target_rank noInterference
          (fuel + 1) LockPc.outer 0 OPAL_ATOMIC_LOCK_UNLOCKED []
        = fsm_atomic_lock_loop OSC_FSM_USE_SWAP_INSTEAD_OF_CSWAP module target_rank
            noInterference fuel LockPc.inner 1 OPAL_ATOMIC_LOCK_LOCKED
            [Event.trylock target_rank OPAL_ATOMIC_LOCK_UNLOCKED 1]) ∧
    (∀ fuel, (fsm_atomic_lock (demoModule 0) 1 noInterference fuel demoWorld).isSome = false) ∧
    fsm_atomic_lock_loop false (demoModule 1) 1 noInterference 1 LockPc.outer 0
        OPAL_ATOMIC_LOCK_UNLOCKED []
      = some ⟨OPAL_ATOMIC_LOCK_LOCKED, 1, [Event.trylock 1 OPAL_ATOMIC_LOCK_UNLOCKED 0]⟩ := by
  refine ⟨fsm_atomic_lock_word_uncontended_spins, ?_, ?_, by decide⟩
  · intro module target_rank fuel
    simp only [OSC_FSM_USE_SWAP_INSTEAD_OF_CSWAP, fsm_atomic_lock_loop, noInterference,
      fsm_atomic_trylock_swap]
    simp
  · intro fuel
    rw [fsm_atomic_lock_uncontended_spins (demoModule 0) 1 fuel demoWorld rfl]
    rfl

end OscFsm
